import Mathlib

/-!
# aconnect — ALSA sequencer connection manager

A shallow embedding of `seq/aconnect/aconnect.c`.

* The C functions of the file (`check_permission`, `list_each_subs`,
  `do_search_port`, `remove_connection`, `main`, ...) are Lean functions of the
  same name.  A `while` loop becomes a function recursing on a fuel argument;
  fuel is consumed by one pass through the loop body, so "fuel `n` suffices"
  reads "the loop runs at most `n` iterations".
* The sequencer service is external to the file.  It is represented by a finite
  registry of clients and ports (in `Env`), which the tool never changes and of
  which a port query omits the inactive ports unless asked for them, and
  by the mutable `State`: the list of subscriptions, the calls made on the
  service so far, and the text written to the two output streams.
* Header constants that are not part of the file (capability and direction bits)
  are fields of `SeqConsts`; every theorem holds for all their values.
-/

namespace Aconnect

/-! ## Header constants and build configuration -/

/-- Constants of the ALSA headers used by the file, and the preprocessor
conditions it tests.  The values are not fixed here. -/
structure SeqConsts where
  SND_SEQ_PORT_CAP_READ : Nat
  SND_SEQ_PORT_CAP_WRITE : Nat
  SND_SEQ_PORT_CAP_SUBS_READ : Nat
  SND_SEQ_PORT_CAP_SUBS_WRITE : Nat
  SND_SEQ_PORT_CAP_NO_EXPORT : Nat
  /-- True when the headers define `SND_SEQ_PORT_CAP_INACTIVE`. -/
  HANDLE_SHOW_ALL : Bool
  /-- The bit by which the service marks an inactive port, and by which a port
  query asks for inactive ports too. -/
  SND_SEQ_PORT_CAP_INACTIVE : Nat
  /-- True when the headers define `SND_SEQ_PORT_DIR_INPUT`. -/
  HAVE_PORT_DIR : Bool
  SND_SEQ_PORT_DIR_INPUT : Nat
  SND_SEQ_PORT_DIR_OUTPUT : Nat
  HAVE_SEQ_CLIENT_INFO_GET_MIDI_VERSION : Bool
  SND_SEQ_CLIENT_UMP_MIDI_1_0 : Int
  SND_SEQ_CLIENT_UMP_MIDI_2_0 : Int
  HAVE_SEQ_CLIENT_INFO_GET_CARD : Bool
  HAVE_SEQ_CLIENT_INFO_GET_PID : Bool

/-- The values of alsa-lib 1.2.10 (`seq.h`), used for concrete evaluation. -/
def alsa_consts : SeqConsts where
  SND_SEQ_PORT_CAP_READ := 1
  SND_SEQ_PORT_CAP_WRITE := 2
  SND_SEQ_PORT_CAP_SUBS_READ := 32
  SND_SEQ_PORT_CAP_SUBS_WRITE := 64
  SND_SEQ_PORT_CAP_NO_EXPORT := 128
  HANDLE_SHOW_ALL := true
  SND_SEQ_PORT_CAP_INACTIVE := 256
  HAVE_PORT_DIR := true
  SND_SEQ_PORT_DIR_INPUT := 1
  SND_SEQ_PORT_DIR_OUTPUT := 2
  HAVE_SEQ_CLIENT_INFO_GET_MIDI_VERSION := true
  SND_SEQ_CLIENT_UMP_MIDI_1_0 := 1
  SND_SEQ_CLIENT_UMP_MIDI_2_0 := 2
  HAVE_SEQ_CLIENT_INFO_GET_CARD := true
  HAVE_SEQ_CLIENT_INFO_GET_PID := true

/-! ## Data -/

/-- A port address: `snd_seq_addr_t`. -/
structure snd_seq_addr_t where
  client : Nat
  port : Nat
deriving DecidableEq, Repr

inductive snd_seq_client_type_t where
  | SND_SEQ_USER_CLIENT
  | SND_SEQ_KERNEL_CLIENT
deriving DecidableEq, Repr

/-- The fields of `snd_seq_client_info_t` the file reads or writes.  `client` is
an `int`: it holds `-1` before the first `snd_seq_query_next_client`. -/
structure snd_seq_client_info_t where
  client : Int := 0
  name : String := ""
  type : snd_seq_client_type_t := .SND_SEQ_KERNEL_CLIENT
  midi_version : Int := 0
  card : Int := 0
  pid : Int := 0
deriving DecidableEq, Repr

/-- The fields of `snd_seq_port_info_t` the file reads or writes.  `port` holds
`-1` before the first `snd_seq_query_next_port`. -/
structure snd_seq_port_info_t where
  client : Int := 0
  port : Int := 0
  name : String := ""
  capability : Nat := 0
  direction : Nat := 0
deriving DecidableEq, Repr

def snd_seq_port_info_get_addr (pinfo : snd_seq_port_info_t) : snd_seq_addr_t :=
  ⟨pinfo.client.toNat, pinfo.port.toNat⟩

/-- A subscription descriptor: `snd_seq_port_subscribe_t`. -/
structure snd_seq_port_subscribe_t where
  sender : snd_seq_addr_t := ⟨0, 0⟩
  dest : snd_seq_addr_t := ⟨0, 0⟩
  queue : Int := 0
  exclusive : Bool := false
  time_update : Bool := false
  time_real : Bool := false
deriving DecidableEq, Repr

inductive snd_seq_query_subs_type_t where
  | SND_SEQ_QUERY_SUBS_READ
  | SND_SEQ_QUERY_SUBS_WRITE
deriving DecidableEq, Repr

/-- A subscription query: `snd_seq_query_subscribe_t`.  `root`, `type` and
`index` are the request; the other fields are filled in by the service. -/
structure snd_seq_query_subscribe_t where
  root : snd_seq_addr_t := ⟨0, 0⟩
  type : snd_seq_query_subs_type_t := .SND_SEQ_QUERY_SUBS_READ
  index : Nat := 0
  addr : snd_seq_addr_t := ⟨0, 0⟩
  queue : Int := 0
  exclusive : Bool := false
  time_update : Bool := false
  time_real : Bool := false
deriving DecidableEq, Repr

/-! ## check permission (capability) of specified port -/

def LIST_INPUT : Nat := 1
def LIST_OUTPUT : Nat := 2

/-- The macro `perm_ok(cap,bits)`: `((cap) & (bits)) == (bits)`. -/
def perm_ok (cap bits : Nat) : Bool := (cap &&& bits) == bits

/-- The function `check_direction`: `!dir || (dir & bit)` when the headers know
port directions, the macro of constant value `1` otherwise. -/
def check_direction (K : SeqConsts) (pinfo : snd_seq_port_info_t) (bit : Nat) : Nat :=
  if K.HAVE_PORT_DIR then
    let dir := pinfo.direction
    if dir = 0 ∨ dir &&& bit ≠ 0 then 1 else 0
  else 1

def check_permission (K : SeqConsts) (pinfo : snd_seq_port_info_t) (perm : Nat) : Nat :=
  let cap := pinfo.capability
  if cap &&& K.SND_SEQ_PORT_CAP_NO_EXPORT ≠ 0 then 0
  else if perm = 0 then 1
  else if perm &&& LIST_INPUT ≠ 0
      ∧ perm_ok cap (K.SND_SEQ_PORT_CAP_READ ||| K.SND_SEQ_PORT_CAP_SUBS_READ) = true
      ∧ check_direction K pinfo K.SND_SEQ_PORT_DIR_INPUT ≠ 0 then 1
  else if perm &&& LIST_OUTPUT ≠ 0
      ∧ perm_ok cap (K.SND_SEQ_PORT_CAP_WRITE ||| K.SND_SEQ_PORT_CAP_SUBS_WRITE) = true
      ∧ check_direction K pinfo K.SND_SEQ_PORT_DIR_OUTPUT ≠ 0 then 1
  else 0

/-! ## The sequencer service

The service is not part of the file.  Its registry of clients and ports is
finite and fixed during a run; the subscriptions are a finite list that
`snd_seq_subscribe_port` and `snd_seq_unsubscribe_port` change.  Every call on
the service is appended to the field `calls` of the state. -/

/-- A port of the registry. -/
structure Port where
  port : Nat
  name : String := ""
  capability : Nat := 0
  direction : Nat := 0
deriving DecidableEq, Repr

/-- A client of the registry, with its ports. -/
structure Client where
  client : Nat
  name : String := ""
  type : snd_seq_client_type_t := .SND_SEQ_KERNEL_CLIENT
  midi_version : Int := 0
  card : Int := -1
  pid : Int := -1
  ports : List Port := []
deriving DecidableEq, Repr

/-- The environment of a run: the registry of the sequencer service, the answers
of the service calls whose outcome the tool only tests, and the two library
functions `atoi` and `snd_strerror(errno)`. -/
structure Env where
  clients : List Client := []
  /-- Return value of `snd_seq_open`. -/
  open_result : Int := 0
  /-- Return value of `snd_seq_client_id`. -/
  client_id : Int := 128
  /-- Return value of `snd_seq_set_client_name`. -/
  set_client_name_result : Int := 0
  /-- Result of `snd_seq_parse_address`; `none` is a negative return value. -/
  parse_address : String → Option snd_seq_addr_t := fun _ => none
  /-- Pairs for which the service refuses `snd_seq_subscribe_port`. -/
  subscribe_denied : snd_seq_addr_t → snd_seq_addr_t → Bool := fun _ _ => false
  /-- Pairs for which the service refuses `snd_seq_unsubscribe_port`. -/
  unsubscribe_denied : snd_seq_addr_t → snd_seq_addr_t → Bool := fun _ _ => false
  strerror : String := ""
  atoi : String → Int := fun _ => 0

/-- A call on the sequencer library, with the arguments that select its effect. -/
inductive Call where
  | snd_seq_open
  | snd_lib_error_set_handler
  | snd_seq_close
  | snd_seq_client_id
  | snd_seq_set_client_name (name : String)
  | snd_seq_parse_address (arg : String)
  | snd_seq_get_port_subscription (sender dest : snd_seq_addr_t)
  | snd_seq_subscribe_port (sender dest : snd_seq_addr_t)
  | snd_seq_unsubscribe_port (sender dest : snd_seq_addr_t)
  | snd_seq_query_next_client (client : Int)
  | snd_seq_query_next_port (client port : Int)
  | snd_seq_query_port_subscribers (root : snd_seq_addr_t) (type : snd_seq_query_subs_type_t)
      (index : Nat)
  | snd_seq_get_any_port_info (client port : Nat)
deriving DecidableEq, Repr

/-- What a run changes: the subscriptions held by the service, the calls made so
far, and the text written to standard output and standard error. -/
structure State where
  subs : List snd_seq_port_subscribe_t := []
  calls : List Call := []
  stdout : String := ""
  stderr : String := ""
deriving DecidableEq, Repr

def State.log (st : State) (c : Call) : State := { st with calls := st.calls ++ [c] }

/-- Writes to standard output: `printf`. -/
def State.printf (st : State) (s : String) : State := { st with stdout := st.stdout ++ s }

/-- Writes to standard error: `fprintf(stderr, ...)`. -/
def State.eprintf (st : State) (s : String) : State := { st with stderr := st.stderr ++ s }

/-- The least identifier of the list that is greater than `cur`. -/
def next_id (cur : Int) : List Nat → Option Nat
  | [] => none
  | x :: xs =>
    match next_id cur xs with
    | none => if cur < (x : Int) then some x else none
    | some y => if cur < (x : Int) ∧ x < y then some x else some y

def Client.info (c : Client) : snd_seq_client_info_t :=
  { client := c.client, name := c.name, type := c.type, midi_version := c.midi_version,
    card := c.card, pid := c.pid }

def Port.info (client : Nat) (p : Port) : snd_seq_port_info_t :=
  { client := client, port := p.port, name := p.name, capability := p.capability,
    direction := p.direction }

def find_client (env : Env) (client : Int) : Option Client :=
  env.clients.find? (fun c => decide ((c.client : Int) = client))

def find_port (env : Env) (client port : Int) : Option snd_seq_port_info_t :=
  (find_client env client).bind fun c =>
    (c.ports.find? (fun p => decide ((p.port : Int) = port))).map (Port.info c.client)

def snd_seq_open (env : Env) (st : State) : State × Int :=
  (st.log .snd_seq_open, env.open_result)

def snd_lib_error_set_handler (st : State) : State :=
  st.log .snd_lib_error_set_handler

def snd_seq_close (st : State) : State :=
  st.log .snd_seq_close

def snd_seq_client_id (env : Env) (st : State) : State × Int :=
  (st.log .snd_seq_client_id, env.client_id)

def snd_seq_set_client_name (env : Env) (st : State) (name : String) : State × Int :=
  (st.log (.snd_seq_set_client_name name), env.set_client_name_result)

def snd_seq_parse_address (env : Env) (st : State) (arg : String) :
    State × Option snd_seq_addr_t :=
  (st.log (.snd_seq_parse_address arg), env.parse_address arg)

/-- The client following `cinfo.client`: the one of least identifier above it. -/
def snd_seq_query_next_client (env : Env) (st : State) (cinfo : snd_seq_client_info_t) :
    State × Option snd_seq_client_info_t :=
  (st.log (.snd_seq_query_next_client cinfo.client),
   (next_id cinfo.client (env.clients.map (·.client))).bind fun n =>
     (find_client env n).map Client.info)

/-- The ports of a client that a port query of request capability `req` runs
through: the service omits an inactive port unless the request carries the
inactive bit. -/
def visible_ports (K : SeqConsts) (req : Nat) (c : Client) : List Port :=
  c.ports.filter fun p =>
    decide (p.capability &&& K.SND_SEQ_PORT_CAP_INACTIVE = 0)
      || decide (req &&& K.SND_SEQ_PORT_CAP_INACTIVE ≠ 0)

/-- The port of client `pinfo.client` following `pinfo.port`: among the ports
visible to the request, the one of least number above `pinfo.port`. -/
def snd_seq_query_next_port (K : SeqConsts) (env : Env) (st : State)
    (pinfo : snd_seq_port_info_t) : State × Option snd_seq_port_info_t :=
  (st.log (.snd_seq_query_next_port pinfo.client pinfo.port),
   (find_client env pinfo.client).bind fun c =>
     (next_id pinfo.port ((visible_ports K pinfo.capability c).map (·.port))).bind fun n =>
       ((visible_ports K pinfo.capability c).find? fun p => decide ((p.port : Int) = n)).map
         (Port.info c.client))

def snd_seq_get_any_port_info (env : Env) (st : State) (client port : Nat) :
    State × Option snd_seq_port_info_t :=
  (st.log (.snd_seq_get_any_port_info client port), find_port env client port)

/-- The subscriptions a query of the given root and type runs through: those the
root sends to (read) or those it receives from (write). -/
def subscribers (st : State) (root : snd_seq_addr_t) (type : snd_seq_query_subs_type_t) :
    List snd_seq_port_subscribe_t :=
  match type with
  | .SND_SEQ_QUERY_SUBS_READ => st.subs.filter (fun s => decide (s.sender = root))
  | .SND_SEQ_QUERY_SUBS_WRITE => st.subs.filter (fun s => decide (s.dest = root))

/-- The peer address a query reports for a subscription. -/
def peer_addr (type : snd_seq_query_subs_type_t) (s : snd_seq_port_subscribe_t) :
    snd_seq_addr_t :=
  match type with
  | .SND_SEQ_QUERY_SUBS_READ => s.dest
  | .SND_SEQ_QUERY_SUBS_WRITE => s.sender

/-- The subscription of index `query.index` among those of the root; fails when
the index is not below their number. -/
def snd_seq_query_port_subscribers (st : State) (query : snd_seq_query_subscribe_t) :
    State × Option snd_seq_query_subscribe_t :=
  (st.log (.snd_seq_query_port_subscribers query.root query.type query.index),
   ((subscribers st query.root query.type).get? query.index).map fun s =>
     { query with addr := peer_addr query.type s, queue := s.queue, exclusive := s.exclusive,
                  time_update := s.time_update, time_real := s.time_real })

/-- Whether a subscription links the given pair of ports. -/
def links (sender dest : snd_seq_addr_t) (s : snd_seq_port_subscribe_t) : Bool :=
  decide (s.sender = sender) && decide (s.dest = dest)

/-- Returns `0` when a subscription of the pair exists, `-ENOENT` otherwise. -/
def snd_seq_get_port_subscription (st : State) (subs : snd_seq_port_subscribe_t) :
    State × Int :=
  (st.log (.snd_seq_get_port_subscription subs.sender subs.dest),
   if st.subs.any (links subs.sender subs.dest) then 0 else -2)

/-- Adds the subscription, unless the service refuses the pair or already
holds a subscription of it. -/
def snd_seq_subscribe_port (env : Env) (st : State) (subs : snd_seq_port_subscribe_t) :
    State × Int :=
  let st1 := st.log (.snd_seq_subscribe_port subs.sender subs.dest)
  if env.subscribe_denied subs.sender subs.dest then (st1, -1)
  else if st.subs.any (links subs.sender subs.dest) then (st1, -16)
  else ({ st1 with subs := st1.subs ++ [subs] }, 0)

/-- Removes the subscription of the pair, unless the service refuses the pair or
holds no subscription of it. -/
def snd_seq_unsubscribe_port (env : Env) (st : State) (subs : snd_seq_port_subscribe_t) :
    State × Int :=
  let st1 := st.log (.snd_seq_unsubscribe_port subs.sender subs.dest)
  if env.unsubscribe_denied subs.sender subs.dest then (st1, -1)
  else if st.subs.any (links subs.sender subs.dest) then
    ({ st1 with subs := st1.subs.eraseP (links subs.sender subs.dest) }, 0)
  else (st1, -2)

/-! ## list subscribers of specified type -/

/-- The conversion `%d` of `printf`. -/
def fmt_d (n : Int) : String := toString n

/-- The text one pass of the loop of `list_each_subs` prints after the
separator: the peer address and its markers. -/
def list_each_subs_entry (st : State) (subs : snd_seq_query_subscribe_t) : State :=
  let addr := subs.addr
  let st := st.printf (fmt_d addr.client ++ ":" ++ fmt_d addr.port)
  let st := if subs.exclusive then st.printf "[ex]" else st
  if subs.time_update then
    st.printf ("[" ++ (if subs.time_real then "real" else "tick") ++ ":" ++ fmt_d subs.queue ++ "]")
  else st

/-- The `while` loop of `list_each_subs`; returns the final state and `count`. -/
def list_each_subs_loop (msg : String) :
    Nat → State → snd_seq_query_subscribe_t → Nat → Option (State × Nat)
  | 0, st, subs, count =>
    match snd_seq_query_port_subscribers st subs with
    | (st, none) => some (st, count)
    | (_, some _) => none
  | fuel + 1, st, subs, count =>
    match snd_seq_query_port_subscribers st subs with
    | (st, none) => some (st, count)
    | (st, some subs) =>
      let st := if count = 0 then st.printf ("\t" ++ msg ++ ": ") else st.printf ", "
      let st := list_each_subs_entry st subs
      list_each_subs_loop msg fuel st { subs with index := subs.index + 1 } (count + 1)

def list_each_subs (fuel : Nat) (st : State) (subs : snd_seq_query_subscribe_t)
    (type : snd_seq_query_subs_type_t) (msg : String) : Option State :=
  let subs := { subs with type := type }
  let subs := { subs with index := 0 }
  match list_each_subs_loop msg fuel st subs 0 with
  | none => none
  | some (st, count) => some (if count > 0 then st.printf "\n" else st)

/-! ## list subscribers -/

/-- The function `list_subscribers`.  The query is handed to `list_each_subs` by
value: of what the first call leaves in it, the second call sets the type and
the index anew and reads nothing else before the service overwrites it. -/
def list_subscribers (fuel : Nat) (st : State) (addr : snd_seq_addr_t) : Option State :=
  let subs : snd_seq_query_subscribe_t := { root := addr }
  match list_each_subs fuel st subs .SND_SEQ_QUERY_SUBS_READ "Connecting To" with
  | none => none
  | some st => list_each_subs fuel st subs .SND_SEQ_QUERY_SUBS_WRITE "Connected From"

/-! ## search all ports -/

/-- The type of the callbacks of `do_search_port`.  A callback returns `none`
when one of its own loops runs out of fuel. -/
abbrev action_func_t :=
  State → snd_seq_client_info_t → snd_seq_port_info_t → Nat → Option State

/-- The request for inactive ports that `do_search_port` makes under `show_all`. -/
def set_show_all (K : SeqConsts) (show_all : Bool) (pinfo : snd_seq_port_info_t) :
    snd_seq_port_info_t :=
  if K.HANDLE_SHOW_ALL && show_all then
    { pinfo with capability := K.SND_SEQ_PORT_CAP_INACTIVE }
  else pinfo

/-- The inner `while` loop of `do_search_port`, over the ports of one client. -/
def do_search_port_ports (K : SeqConsts) (env : Env) (show_all : Bool) (perm : Nat)
    (do_action : action_func_t) (cinfo : snd_seq_client_info_t) :
    Nat → State → snd_seq_port_info_t → Nat → Option (State × snd_seq_port_info_t)
  | 0, st, pinfo, _ =>
    match snd_seq_query_next_port K env st pinfo with
    | (st, none) => some (st, pinfo)
    | (_, some _) => none
  | fuel + 1, st, pinfo, count =>
    match snd_seq_query_next_port K env st pinfo with
    | (st, none) => some (st, pinfo)
    | (st, some pinfo) =>
      if check_permission K pinfo perm ≠ 0 then
        match do_action st cinfo pinfo count with
        | none => none
        | some st =>
          do_search_port_ports K env show_all perm do_action cinfo fuel st
            (set_show_all K show_all pinfo) (count + 1)
      else
        do_search_port_ports K env show_all perm do_action cinfo fuel st
          (set_show_all K show_all pinfo) count

/-- The outer `while` loop of `do_search_port`, over the clients. -/
def do_search_port_clients (K : SeqConsts) (env : Env) (show_all : Bool) (perm : Nat)
    (do_action : action_func_t) (fuel : Nat) :
    Nat → State → snd_seq_client_info_t → snd_seq_port_info_t → Option State
  | 0, st, cinfo, _ =>
    match snd_seq_query_next_client env st cinfo with
    | (st, none) => some st
    | (_, some _) => none
  | n + 1, st, cinfo, pinfo =>
    match snd_seq_query_next_client env st cinfo with
    | (st, none) => some st
    | (st, some cinfo) =>
      let pinfo := { pinfo with client := cinfo.client }
      let pinfo := { pinfo with port := -1 }
      let pinfo := set_show_all K show_all pinfo
      match do_search_port_ports K env show_all perm do_action cinfo fuel st pinfo 0 with
      | none => none
      | some (st, pinfo) =>
        do_search_port_clients K env show_all perm do_action fuel n st cinfo pinfo

def do_search_port (K : SeqConsts) (env : Env) (show_all : Bool) (fuel : Nat) (st : State)
    (perm : Nat) (do_action : action_func_t) : Option State :=
  let cinfo : snd_seq_client_info_t := {}
  let pinfo : snd_seq_port_info_t := {}
  let cinfo := { cinfo with client := -1 }
  do_search_port_clients K env show_all perm do_action fuel fuel st cinfo pinfo

/-- Right-justifies in a field of `w` bytes: the conversion `%3d` for `w = 3`. -/
def pad_left (w : Nat) (s : String) : String :=
  String.mk (List.replicate (w - s.utf8ByteSize) ' ') ++ s

/-- Left-justifies in a field of `w` bytes: the conversion `%-16s` for `w = 16`. -/
def pad_right (w : Nat) (s : String) : String :=
  s ++ String.mk (List.replicate (w - s.utf8ByteSize) ' ')

/-- The block of `print_port` under `if (! count)`: the line of the client. -/
def print_port_client (K : SeqConsts) (st : State) (cinfo : snd_seq_client_info_t)
    (pinfo : snd_seq_port_info_t) : State :=
  let card : Int := -1
  let pid : Int := -1
  let st := st.printf ("client " ++ fmt_d cinfo.client ++ ": '" ++ cinfo.name ++ "' [type="
    ++ (if cinfo.type = .SND_SEQ_USER_CLIENT then "user" else "kernel"))
  let st :=
    if K.HAVE_SEQ_CLIENT_INFO_GET_MIDI_VERSION then
      if cinfo.midi_version = K.SND_SEQ_CLIENT_UMP_MIDI_1_0 then st.printf ",UMP-MIDI1"
      else if cinfo.midi_version = K.SND_SEQ_CLIENT_UMP_MIDI_2_0 then st.printf ",UMP-MIDI2"
      else st
    else st
  let st :=
    if K.HANDLE_SHOW_ALL ∧ pinfo.capability &&& K.SND_SEQ_PORT_CAP_INACTIVE ≠ 0 then
      st.printf ",INACTIVE"
    else st
  let card := if K.HAVE_SEQ_CLIENT_INFO_GET_CARD then cinfo.card else card
  let st := if card ≠ -1 then st.printf (",card=" ++ fmt_d card) else st
  let pid := if K.HAVE_SEQ_CLIENT_INFO_GET_PID then cinfo.pid else pid
  let st := if pid ≠ -1 then st.printf (",pid=" ++ fmt_d pid) else st
  st.printf "]\n"

def print_port (K : SeqConsts) (st : State) (cinfo : snd_seq_client_info_t)
    (pinfo : snd_seq_port_info_t) (count : Nat) : Option State :=
  let st := if count = 0 then print_port_client K st cinfo pinfo else st
  some (st.printf ("  " ++ pad_left 3 (fmt_d pinfo.port) ++ " '" ++ pad_right 16 pinfo.name
    ++ "'\n"))

def print_port_and_subs (K : SeqConsts) (fuel : Nat) (st : State)
    (cinfo : snd_seq_client_info_t) (pinfo : snd_seq_port_info_t) (count : Nat) :
    Option State :=
  match print_port K st cinfo pinfo count with
  | none => none
  | some st => list_subscribers fuel st (snd_seq_port_info_get_addr pinfo)

/-! ## remove all (exported) connections -/

/-- One pass through the body of the `while` loop of `remove_connection`, after
the query has returned the entry `query`.  Returns the state and the query with
which the loop goes on. -/
def remove_connection_body (K : SeqConsts) (env : Env) (st : State)
    (query : snd_seq_query_subscribe_t) (subs : snd_seq_port_subscribe_t) :
    State × snd_seq_query_subscribe_t × snd_seq_port_subscribe_t :=
  let sender := query.root
  let dest := query.addr
  match snd_seq_get_any_port_info env st dest.client dest.port with
  | (st, none) => (st, { query with index := query.index + 1 }, subs)
  | (st, some port) =>
    if port.capability &&& K.SND_SEQ_PORT_CAP_SUBS_WRITE = 0
        ∨ port.capability &&& K.SND_SEQ_PORT_CAP_NO_EXPORT ≠ 0 then
      (st, { query with index := query.index + 1 }, subs)
    else
      let subs := { subs with queue := query.queue }
      let subs := { subs with sender := sender }
      let subs := { subs with dest := dest }
      match snd_seq_unsubscribe_port env st subs with
      | (st, rc) =>
        if rc < 0 then (st, { query with index := query.index + 1 }, subs)
        else (st, query, subs)

/-- The `while` loop of `remove_connection`. -/
def remove_connection_loop (K : SeqConsts) (env : Env) :
    Nat → State → snd_seq_query_subscribe_t → snd_seq_port_subscribe_t → Option State
  | 0, st, query, _ =>
    match snd_seq_query_port_subscribers st query with
    | (st, none) => some st
    | (_, some _) => none
  | fuel + 1, st, query, subs =>
    match snd_seq_query_port_subscribers st query with
    | (st, none) => some st
    | (st, some query) =>
      match remove_connection_body K env st query subs with
      | (st, query, subs) => remove_connection_loop K env fuel st query subs

def remove_connection (K : SeqConsts) (env : Env) (fuel : Nat) (st : State)
    (_info : snd_seq_client_info_t) (pinfo : snd_seq_port_info_t) (_count : Nat) :
    Option State :=
  let query : snd_seq_query_subscribe_t := {}
  let query := { query with root := snd_seq_port_info_get_addr pinfo }
  let query := { query with type := .SND_SEQ_QUERY_SUBS_READ }
  let query := { query with index := 0 }
  remove_connection_loop K env fuel st query {}

def remove_all_connections (K : SeqConsts) (env : Env) (show_all : Bool) (fuel : Nat)
    (st : State) : Option State :=
  do_search_port K env show_all fuel st 0 (remove_connection K env fuel)

/-! ## main -/

/-- The text `usage` prints. -/
def usage_text (K : SeqConsts) : String :=
  "aconnect - ALSA sequencer connection manager\n"
  ++ "Copyright (C) 1999-2000 Takashi Iwai\n"
  ++ "Usage:\n"
  ++ " * Connection/disconnection between two ports\n"
  ++ "   aconnect [-options] sender receiver\n"
  ++ "     sender, receiver = client:port pair\n"
  ++ "     -d,--disconnect     disconnect\n"
  ++ "     -e,--exclusive      exclusive connection\n"
  ++ "     -r,--real #         convert real-time-stamp on queue\n"
  ++ "     -t,--tick #         convert tick-time-stamp on queue\n"
  ++ " * List connected ports (no subscription action)\n"
  ++ "   aconnect -i|-o [-options]\n"
  ++ "     -i,--input          list input (readable) ports\n"
  ++ "     -o,--output         list output (writable) ports\n"
  ++ (if K.HANDLE_SHOW_ALL then "     -a,--all            show inactive ports, too\n" else "")
  ++ "     -l,--list           list current connections of each port\n"
  ++ " * Remove all exported connections\n"
  ++ "     -x, --removeall\n"

def usage (K : SeqConsts) (st : State) : State := st.printf (usage_text K)

/-- The anonymous `enum` of the four commands. -/
inductive Command where
  | SUBSCRIBE
  | UNSUBSCRIBE
  | LIST
  | REMOVE_ALL
deriving DecidableEq, Repr

/-- The variables that the option loop of `main` sets, with their initial
values, and the file-scope `show_all`. -/
structure Locals where
  queue : Int := 0
  convert_time : Bool := false
  convert_real : Bool := false
  exclusive : Bool := false
  command : Command := .SUBSCRIBE
  list_perm : Nat := 0
  list_subs : Bool := false
  show_all : Bool := false
deriving DecidableEq, Repr

/-- The `switch (c)` of the option loop: `none` is the `default` case, which
prints the usage and exits. -/
def main_switch (K : SeqConsts) (env : Env) (v : Locals) (c : Char) (optarg : String) :
    Option Locals :=
  if c = 'd' then some { v with command := .UNSUBSCRIBE }
  else if c = 'i' then some { v with command := .LIST, list_perm := v.list_perm ||| LIST_INPUT }
  else if c = 'o' then some { v with command := .LIST, list_perm := v.list_perm ||| LIST_OUTPUT }
  else if c = 'e' then some { v with exclusive := true }
  else if c = 'r' then
    some { v with queue := env.atoi optarg, convert_time := true, convert_real := true }
  else if c = 't' then
    some { v with queue := env.atoi optarg, convert_time := true, convert_real := false }
  else if c = 'l' then some { v with command := .LIST, list_subs := true }
  else if c = 'x' then some { v with command := .REMOVE_ALL }
  else if K.HANDLE_SHOW_ALL ∧ c = 'a' then some { v with command := .LIST, show_all := true }
  else none

/-- The option loop of `main` over the successive results of `getopt_long`, each
a value `c` with its `optarg`. -/
def main_getopt_loop (K : SeqConsts) (env : Env) :
    List (Char × String) → Locals → Option Locals
  | [], v => some v
  | (c, optarg) :: rest, v =>
    match main_switch K env v c optarg with
    | none => none
    | some v => main_getopt_loop K env rest v

/-- The part of `main` after the `switch (command)`: connection or
disconnection.  `args` are the positional arguments `argv[optind]`, ...,
`argv[argc - 1]`, so that `optind + 2 > argc` reads `args` has fewer than two
elements. -/
def main_connect (K : SeqConsts) (env : Env) (v : Locals) (args : List String)
    (st : State) : State × Int :=
  match args with
  | [] => (usage K (snd_seq_close st), 1)
  | [_] => (usage K (snd_seq_close st), 1)
  | arg0 :: arg1 :: _ =>
    match snd_seq_client_id env st with
    | (st, client) =>
    if client < 0 then ((snd_seq_close st).eprintf "can't get client id\n", 1)
    else
    match snd_seq_set_client_name env st "ALSA Connector" with
    | (st, rc) =>
    if rc < 0 then ((snd_seq_close st).eprintf "can't set client info\n", 1)
    else
    match snd_seq_parse_address env st arg0 with
    | (st, none) =>
      ((snd_seq_close st).eprintf ("invalid sender address " ++ arg0 ++ "\n"), 1)
    | (st, some sender) =>
    match snd_seq_parse_address env st arg1 with
    | (st, none) =>
      ((snd_seq_close st).eprintf ("invalid destination address " ++ arg1 ++ "\n"), 1)
    | (st, some dest) =>
    let subs : snd_seq_port_subscribe_t :=
      { sender := sender, dest := dest, queue := v.queue, exclusive := v.exclusive,
        time_update := v.convert_time, time_real := v.convert_real }
    if v.command = .UNSUBSCRIBE then
      match snd_seq_get_port_subscription st subs with
      | (st, rc) =>
      if rc < 0 then ((snd_seq_close st).eprintf "No subscription is found\n", 1)
      else
      match snd_seq_unsubscribe_port env st subs with
      | (st, rc) =>
      if rc < 0 then
        ((snd_seq_close st).eprintf ("Disconnection failed (" ++ env.strerror ++ ")\n"), 1)
      else (snd_seq_close st, 0)
    else
      match snd_seq_get_port_subscription st subs with
      | (st, rc) =>
      if rc = 0 then
        ((snd_seq_close st).eprintf "Connection is already subscribed\n", 1)
      else
      match snd_seq_subscribe_port env st subs with
      | (st, rc) =>
      if rc < 0 then
        ((snd_seq_close st).eprintf ("Connection failed (" ++ env.strerror ++ ")\n"), 1)
      else (snd_seq_close st, 0)

/-- The part of `main` after the option loop: it opens the sequencer and
dispatches on `command`.  The result is the final state and the exit status. -/
def main_run (K : SeqConsts) (env : Env) (fuel : Nat) (v : Locals) (args : List String)
    (st : State) : Option (State × Int) :=
  match snd_seq_open env st with
  | (st, rc) =>
  if rc < 0 then some (st.eprintf "can't open sequencer\n", 1)
  else
  let st := snd_lib_error_set_handler st
  match v.command with
  | .LIST =>
    match do_search_port K env v.show_all fuel st v.list_perm
        (if v.list_subs then print_port_and_subs K fuel else print_port K) with
    | none => none
    | some st => some (snd_seq_close st, 0)
  | .REMOVE_ALL =>
    match remove_all_connections K env v.show_all fuel st with
    | none => none
    | some st => some (snd_seq_close st, 0)
  | _ => some (main_connect K env v args st)

/-- The function `main`, on the results of `getopt_long` and the positional
arguments that follow the options.  The state records what the file itself
writes; a diagnostic that `getopt_long` prints for an option it rejects is not
part of it. -/
def main (K : SeqConsts) (env : Env) (fuel : Nat) (opts : List (Char × String))
    (args : List String) (st : State) : Option (State × Int) :=
  match main_getopt_loop K env opts {} with
  | none => some (usage K st, 1)
  | some v => main_run K env fuel v args st

/-! ## Specification predicates

The definitions below follow the wording of the specification; the theorems
compare them with the functions above. -/

/-- A port that the input filter may list: its capability contains both the read
and the subscribe-read bit, and its direction, where the headers know one, is
either absent or has the input bit. -/
def input_port (K : SeqConsts) (pinfo : snd_seq_port_info_t) : Prop :=
  pinfo.capability &&& K.SND_SEQ_PORT_CAP_READ = K.SND_SEQ_PORT_CAP_READ
  ∧ pinfo.capability &&& K.SND_SEQ_PORT_CAP_SUBS_READ = K.SND_SEQ_PORT_CAP_SUBS_READ
  ∧ (K.HAVE_PORT_DIR = true →
      pinfo.direction = 0 ∨ pinfo.direction &&& K.SND_SEQ_PORT_DIR_INPUT ≠ 0)

/-- A port that the output filter may list: the symmetric condition. -/
def output_port (K : SeqConsts) (pinfo : snd_seq_port_info_t) : Prop :=
  pinfo.capability &&& K.SND_SEQ_PORT_CAP_WRITE = K.SND_SEQ_PORT_CAP_WRITE
  ∧ pinfo.capability &&& K.SND_SEQ_PORT_CAP_SUBS_WRITE = K.SND_SEQ_PORT_CAP_SUBS_WRITE
  ∧ (K.HAVE_PORT_DIR = true →
      pinfo.direction = 0 ∨ pinfo.direction &&& K.SND_SEQ_PORT_DIR_OUTPUT ≠ 0)

instance (K : SeqConsts) (pinfo : snd_seq_port_info_t) : Decidable (input_port K pinfo) := by
  unfold input_port
  infer_instance

instance (K : SeqConsts) (pinfo : snd_seq_port_info_t) : Decidable (output_port K pinfo) := by
  unfold output_port
  infer_instance

/-- The runs of a port search: `SearchRun P do_action st st1` holds when `st1`
is reached from `st` by enumeration queries and by invocations of the callback,
each invocation on a port that satisfies `P`. -/
inductive SearchRun (P : snd_seq_port_info_t → Prop) (do_action : action_func_t) :
    State → State → Prop where
  | start (st : State) : SearchRun P do_action st st
  | query_client {st st1 : State} (client : Int) :
      SearchRun P do_action st st1 →
      SearchRun P do_action st (st1.log (.snd_seq_query_next_client client))
  | query_port {st st1 : State} (client port : Int) :
      SearchRun P do_action st st1 →
      SearchRun P do_action st (st1.log (.snd_seq_query_next_port client port))
  | invoke {st st1 st2 : State} (cinfo : snd_seq_client_info_t)
      (pinfo : snd_seq_port_info_t) (count : Nat) :
      SearchRun P do_action st st1 → P pinfo → do_action st1 cinfo pinfo count = some st2 →
      SearchRun P do_action st st2

/-- The action an action-selecting flag stands for; `none` for any other flag. -/
def flag_action (K : SeqConsts) (c : Char) : Option Command :=
  if c = 'd' then some .UNSUBSCRIBE
  else if c = 'i' ∨ c = 'o' ∨ c = 'l' ∨ (K.HANDLE_SHOW_ALL = true ∧ c = 'a') then some .LIST
  else if c = 'x' then some .REMOVE_ALL
  else none

/-- The modifier flags `-e`, `-r N` and `-t N`. -/
def modifier_flag (c : Char) : Bool :=
  decide (c = 'e') || decide (c = 'r') || decide (c = 't')

/-- A flag the option loop recognises. -/
def recognised_flag (K : SeqConsts) (c : Char) : Bool :=
  (flag_action K c).isSome || modifier_flag c

/-- The action of the last action-selecting flag of the sequence, and connect
when the sequence has none. -/
def selected_action (K : SeqConsts) (opts : List (Char × String)) : Command :=
  ((opts.filterMap fun o => flag_action K o.1).getLast?).getD .SUBSCRIBE

/-- The number of identifiers of the list above `cur`: what an enumeration that
has reached `cur` has still to visit. -/
def above (cur : Int) (l : List Nat) : Nat :=
  l.countP fun (x : Nat) => decide (cur < (x : Int))

/-- A destination that the sweep removes subscriptions to: its port can be
looked up, has the subscribe-write bit set and the no-export bit clear. -/
def removable_dest (K : SeqConsts) (env : Env) (dest : snd_seq_addr_t) : Bool :=
  match find_port env dest.client dest.port with
  | none => false
  | some port =>
    decide (port.capability &&& K.SND_SEQ_PORT_CAP_SUBS_WRITE ≠ 0)
      && decide (port.capability &&& K.SND_SEQ_PORT_CAP_NO_EXPORT = 0)

/-- A port capability that the enumeration of `do_search_port` is shown: that of
an active port, or any capability when the headers define the inactive bit and
`show_all` is set. -/
def shown (K : SeqConsts) (show_all : Bool) (capability : Nat) : Bool :=
  decide (capability &&& K.SND_SEQ_PORT_CAP_INACTIVE = 0) || (K.HANDLE_SHOW_ALL && show_all)

/-- A sender that the sweep visits: its port can be looked up, has the no-export
bit clear, and is shown to the enumeration. -/
def swept_sender (K : SeqConsts) (env : Env) (show_all : Bool) (sender : snd_seq_addr_t) :
    Bool :=
  match find_port env sender.client sender.port with
  | none => false
  | some port =>
    decide (port.capability &&& K.SND_SEQ_PORT_CAP_NO_EXPORT = 0)
      && shown K show_all port.capability

/-- The ports of a client that are shown to the enumeration. -/
def shown_ports (K : SeqConsts) (show_all : Bool) (c : Client) : List Port :=
  c.ports.filter fun p => shown K show_all p.capability

/-- A request capability under which the service shows exactly the ports that
`shown` describes. -/
def req_ok (K : SeqConsts) (show_all : Bool) (req : Nat) : Prop :=
  ∀ capability : Nat,
    (decide (capability &&& K.SND_SEQ_PORT_CAP_INACTIVE = 0)
      || decide (req &&& K.SND_SEQ_PORT_CAP_INACTIVE ≠ 0)) = shown K show_all capability

/-- A capability that `do_search_port` may leave in its port record between two
queries: without `show_all` it is that of an active port. -/
def res_ok (K : SeqConsts) (show_all : Bool) (capability : Nat) : Prop :=
  (K.HANDLE_SHOW_ALL && show_all) = false →
    capability &&& K.SND_SEQ_PORT_CAP_INACTIVE = 0

/-- The number of read-subscriptions rooted at a port. -/
def read_count (st : State) (root : snd_seq_addr_t) : Nat :=
  (subscribers st root .SND_SEQ_QUERY_SUBS_READ).length

/-- The text of one entry of a subscription line, in the words of the
specification: the peer address as client:port, then the marker of an exclusive
subscription, then the marker of a time conversion with its mode and queue. -/
def subs_entry (type : snd_seq_query_subs_type_t) (s : snd_seq_port_subscribe_t) : String :=
  toString (peer_addr type s).client ++ ":" ++ toString (peer_addr type s).port
  ++ (if s.exclusive then "[ex]" else "")
  ++ (if s.time_update then
        "[" ++ (if s.time_real then "real" else "tick") ++ ":" ++ toString s.queue ++ "]"
      else "")

/-- The line of a direction, in the words of the specification: nothing when
there is no entry, otherwise a tab, the label, a colon and a blank, the entries
separated by a comma and a blank, and a newline. -/
def subs_line (msg : String) (entries : List String) : String :=
  match entries with
  | [] => ""
  | _ => "\t" ++ msg ++ ": " ++ ", ".intercalate entries ++ "\n"

/-- The text the loop of `list_each_subs` prints for the subscriptions that
remain when `count` of them have been printed. -/
def entries_from (msg : String) (type : snd_seq_query_subs_type_t) :
    Nat → List snd_seq_port_subscribe_t → String
  | _, [] => ""
  | count, s :: rest =>
    (if count = 0 then "\t" ++ msg ++ ": " else ", ") ++ subs_entry type s
      ++ entries_from msg type (count + 1) rest

/-- The calls a sweep may make: the enumeration and lookup queries, and an
unsubscribe call whose destination is removable. -/
def sweep_call (K : SeqConsts) (env : Env) : Call → Bool
  | .snd_seq_query_next_client _ => true
  | .snd_seq_query_next_port _ _ => true
  | .snd_seq_query_port_subscribers _ _ _ => true
  | .snd_seq_get_any_port_info _ _ => true
  | .snd_seq_unsubscribe_port _ dest => removable_dest K env dest
  | _ => false

/-- What a sweep keeps of a state `st` in a later state `st1`: the subscriptions
of `st1` are among those of `st` and include all of those whose destination is
not removable, the output is the same, and the calls made in between are sweep
calls. -/
def SweepFrame (K : SeqConsts) (env : Env) (st st1 : State) : Prop :=
  List.Sublist st1.subs st.subs
  ∧ st1.subs.filter (fun s => !removable_dest K env s.dest)
      = st.subs.filter (fun s => !removable_dest K env s.dest)
  ∧ st1.stdout = st.stdout ∧ st1.stderr = st.stderr
  ∧ ∃ tr, st1.calls = st.calls ++ tr ∧ ∀ ev ∈ tr, sweep_call K env ev = true

/-- The calls of a run that holds the handle with discipline: the first call
opens the sequencer, the last call closes it, and each of the two occurs once. -/
def closes_once (new : List Call) : Prop :=
  new.head? = some .snd_seq_open ∧ new.getLast? = some .snd_seq_close
  ∧ new.count .snd_seq_close = 1 ∧ new.count .snd_seq_open = 1

instance (new : List Call) : Decidable (closes_once new) := by
  unfold closes_once
  infer_instance

/-- Two states that differ in their output only. -/
def same_service (a st : State) : Prop :=
  a.subs = st.subs ∧ a.calls = st.calls

/-! ## Concrete registries and states for evaluation -/

/-- A registry of two clients: `128:0` is readable, subscribable and marked
no-export; `129:0` is writable and subscribable; `129:1` is writable,
subscribable and marked no-export. -/
def env_two_clients : Env :=
  { clients :=
      [ { client := 128, name := "kbd", type := .SND_SEQ_USER_CLIENT,
          ports := [ { port := 0, name := "out", capability := 1 + 32 + 128 } ] },
        { client := 129, name := "synth",
          ports := [ { port := 0, name := "in", capability := 2 + 64 },
                     { port := 1, name := "aux", capability := 2 + 64 + 128 } ] } ]
    parse_address := fun s =>
      if s = "128:0" then some ⟨128, 0⟩ else if s = "129:0" then some ⟨129, 0⟩ else none }

/-- A registry in which two senders are subscribed to the removable destination
`129:0`: `128:0` is marked no-export, `20:1` is exported and inactive. -/
def env_unswept : Env :=
  { clients :=
      [ { client := 20, name := "seq",
          ports := [ { port := 1, name := "out", capability := 1 + 32 + 256 } ] },
        { client := 128, name := "kbd", type := .SND_SEQ_USER_CLIENT,
          ports := [ { port := 0, name := "out", capability := 1 + 32 + 128 } ] },
        { client := 129, name := "synth",
          ports := [ { port := 0, name := "in", capability := 2 + 64 } ] } ] }

/-- The two subscriptions `128:0 -> 129:0` and `20:1 -> 129:0`. -/
def st_unswept : State :=
  { subs := [ { sender := ⟨128, 0⟩, dest := ⟨129, 0⟩ },
              { sender := ⟨20, 1⟩, dest := ⟨129, 0⟩ } ] }

/-- The same registry with `128:0` exported. -/
def env_exported : Env :=
  { env_two_clients with
    clients :=
      [ { client := 128, name := "kbd", type := .SND_SEQ_USER_CLIENT,
          ports := [ { port := 0, name := "out", capability := 1 + 32 } ] },
        { client := 129, name := "synth",
          ports := [ { port := 0, name := "in", capability := 2 + 64 },
                     { port := 1, name := "aux", capability := 2 + 64 + 128 } ] } ] }

/-- The same registry, with a service that refuses every unsubscribe call. -/
def env_refusing : Env :=
  { env_exported with unsubscribe_denied := fun _ _ => true }

/-- A state with the subscriptions `128:0 -> 129:0` and `128:0 -> 129:1`. -/
def st_two_subs : State :=
  { subs := [ { sender := ⟨128, 0⟩, dest := ⟨129, 0⟩ },
              { sender := ⟨128, 0⟩, dest := ⟨129, 1⟩, queue := 3, exclusive := true,
                time_update := true } ] }

/-! ## Lemmas -/

theorem and_or_eq_iff (cap a b : Nat) :
    cap &&& (a ||| b) = a ||| b ↔ cap &&& a = a ∧ cap &&& b = b := by
  constructor
  · intro h
    have hbit : ∀ i, ((cap &&& (a ||| b)).testBit i) = ((a ||| b).testBit i) := fun i => by rw [h]
    constructor <;> apply Nat.eq_of_testBit_eq <;> intro i <;> have := hbit i <;>
      simp only [Nat.testBit_and, Nat.testBit_or] at this ⊢ <;> revert this <;>
      cases cap.testBit i <;> cases a.testBit i <;> cases b.testBit i <;> simp
  · rintro ⟨ha, hb⟩
    apply Nat.eq_of_testBit_eq
    intro i
    have ha' : (cap &&& a).testBit i = a.testBit i := by rw [ha]
    have hb' : (cap &&& b).testBit i = b.testBit i := by rw [hb]
    simp only [Nat.testBit_and, Nat.testBit_or] at ha' hb' ⊢
    revert ha' hb'
    cases cap.testBit i <;> cases a.testBit i <;> cases b.testBit i <;> simp

/-! ## Enumeration of identifiers -/

theorem next_id_none {cur : Int} {l : List Nat} (h : next_id cur l = none) :
    ∀ x ∈ l, ¬ cur < (x : Int) := by
  induction l with
  | nil => intro x hx; cases hx
  | cons a l ih =>
    unfold next_id at h
    split at h
    · rename_i hl
      split at h
      · cases h
      · rename_i ha
        intro x hx
        rcases List.mem_cons.1 hx with rfl | hx
        · exact ha
        · exact ih hl x hx
    · split at h <;> cases h

theorem next_id_some {cur : Int} {l : List Nat} {y : Nat} (h : next_id cur l = some y) :
    y ∈ l ∧ cur < (y : Int) ∧ ∀ x ∈ l, cur < (x : Int) → y ≤ x := by
  induction l generalizing y with
  | nil => cases h
  | cons a l ih =>
    unfold next_id at h
    split at h
    · rename_i hl
      split at h
      · rename_i ha
        cases h
        refine ⟨List.mem_cons_self _ _, ha, ?_⟩
        intro x hx hcx
        rcases List.mem_cons.1 hx with rfl | hx
        · exact le_refl _
        · exact absurd hcx (next_id_none hl x hx)
      · cases h
    · rename_i z hl
      obtain ⟨hz, hcz, hmin⟩ := ih hl
      split at h
      · rename_i ha
        cases h
        refine ⟨List.mem_cons_self _ _, ha.1, ?_⟩
        intro x hx hcx
        rcases List.mem_cons.1 hx with rfl | hx
        · exact le_refl _
        · exact le_trans (le_of_lt ha.2) (hmin x hx hcx)
      · rename_i ha
        cases h
        refine ⟨List.mem_cons_of_mem _ hz, hcz, ?_⟩
        intro x hx hcx
        rcases List.mem_cons.1 hx with rfl | hx
        · by_contra hlt
          exact ha ⟨hcx, by omega⟩
        · exact hmin x hx hcx

theorem countP_lt_of_mem {α : Type} (p q : α → Bool) (l : List α)
    (hpq : ∀ x, p x = true → q x = true) (a : α) (ha : a ∈ l) (hqa : q a = true)
    (hpa : p a = false) : l.countP p < l.countP q := by
  induction l with
  | nil => cases ha
  | cons b l ih =>
    have hle : l.countP p ≤ l.countP q := List.countP_mono_left (fun x _ => hpq x)
    rcases List.mem_cons.1 ha with rfl | hmem
    · rw [List.countP_cons_of_pos _ _ hqa, List.countP_cons_of_neg _ _ (by simp [hpa])]
      omega
    · have := ih hmem
      by_cases hb : p b = true
      · rw [List.countP_cons_of_pos _ _ hb, List.countP_cons_of_pos _ _ (hpq b hb)]
        omega
      · rw [List.countP_cons_of_neg _ _ hb]
        by_cases hqb : q b = true
        · rw [List.countP_cons_of_pos _ _ hqb]; omega
        · rw [List.countP_cons_of_neg _ _ hqb]; exact this

theorem above_lt {cur : Int} {l : List Nat} {y : Nat} (h : next_id cur l = some y) :
    above y l < above cur l := by
  obtain ⟨hy, hcy, _⟩ := next_id_some h
  unfold above
  apply countP_lt_of_mem _ _ l _ y hy
  · simpa using hcy
  · simp
  · intro x hx
    simp only [decide_eq_true_eq] at hx ⊢
    omega

theorem above_le_length (cur : Int) (l : List Nat) : above cur l ≤ l.length :=
  List.countP_le_length _

/-! ## Lookup in the registry -/

theorem find_client_some {env : Env} {x : Int} {c : Client}
    (h : find_client env x = some c) : (c.client : Int) = x ∧ c ∈ env.clients := by
  unfold find_client at h
  have h1 := List.find?_some h
  have h2 := List.mem_of_find?_eq_some h
  exact ⟨by simpa using h1, h2⟩

theorem find_client_of_mem {env : Env} {n : Nat}
    (h : n ∈ env.clients.map (·.client)) :
    ∃ c, find_client env (n : Int) = some c ∧ c.client = n := by
  unfold find_client
  cases hf : env.clients.find? (fun c => decide ((c.client : Int) = (n : Int))) with
  | none =>
    rw [List.find?_eq_none] at hf
    obtain ⟨c, hc, rfl⟩ := List.mem_map.1 h
    exact absurd (hf c hc) (by simp)
  | some c =>
    have := List.find?_some hf
    exact ⟨c, rfl, by simpa using this⟩

theorem find_port_some {env : Env} {c : Client} {x y : Int} {info : snd_seq_port_info_t}
    (hc : find_client env x = some c) (h : find_port env x y = some info) :
    info.client = c.client ∧ info.port = y ∧ ∃ p : Nat, (p : Int) = y ∧ p ∈ c.ports.map (·.port) := by
  unfold find_port at h
  rw [hc] at h
  simp only [Option.some_bind, Option.map_eq_some'] at h
  obtain ⟨p, hp, rfl⟩ := h
  have h1 := List.find?_some hp
  have h2 := List.mem_of_find?_eq_some hp
  simp only [decide_eq_true_eq] at h1
  exact ⟨rfl, h1, p.port, h1, List.mem_map.2 ⟨p, h2, rfl⟩⟩

theorem find_port_of_mem {env : Env} {c : Client} {x : Int} {n : Nat}
    (hc : find_client env x = some c) (h : n ∈ c.ports.map (·.port)) :
    ∃ info, find_port env x (n : Int) = some info := by
  unfold find_port
  rw [hc]
  simp only [Option.some_bind, Option.map_eq_some']
  cases hf : c.ports.find? (fun p => decide ((p.port : Int) = (n : Int))) with
  | none =>
    rw [List.find?_eq_none] at hf
    obtain ⟨p, hp, rfl⟩ := List.mem_map.1 h
    exact absurd (hf p hp) (by simp)
  | some p => exact ⟨_, p, rfl, rfl⟩

theorem set_show_all_client (K : SeqConsts) (show_all : Bool) (pinfo : snd_seq_port_info_t) :
    (set_show_all K show_all pinfo).client = pinfo.client
    ∧ (set_show_all K show_all pinfo).port = pinfo.port := by
  unfold set_show_all
  split <;> simp

/-! ## Which ports the enumeration is shown -/

theorem res_ok_zero (K : SeqConsts) (show_all : Bool) : res_ok K show_all 0 := by
  intro _
  exact Nat.zero_and _

theorem res_ok_of_shown (K : SeqConsts) (show_all : Bool) (capability : Nat)
    (h : shown K show_all capability = true) : res_ok K show_all capability := by
  intro hs
  unfold shown at h
  rw [hs] at h
  simpa using h

theorem set_show_all_ok (K : SeqConsts) (show_all : Bool) (pinfo : snd_seq_port_info_t)
    (h : res_ok K show_all pinfo.capability) :
    req_ok K show_all (set_show_all K show_all pinfo).capability
      ∧ res_ok K show_all (set_show_all K show_all pinfo).capability := by
  unfold set_show_all
  cases hs : (K.HANDLE_SHOW_ALL && show_all) with
  | true =>
    simp only [if_true]
    refine ⟨?_, fun hf => by rw [hs] at hf; cases hf⟩
    intro capability
    unfold shown
    rw [hs, Nat.and_self]
    by_cases hI : K.SND_SEQ_PORT_CAP_INACTIVE = 0
    · simp [hI]
    · simp [hI]
  | false =>
    simp only [Bool.false_eq_true, if_false]
    refine ⟨?_, h⟩
    intro capability
    unfold shown
    rw [hs, h hs]
    simp

theorem visible_ports_eq (K : SeqConsts) (show_all : Bool) (req : Nat) (c : Client)
    (h : req_ok K show_all req) : visible_ports K req c = shown_ports K show_all c := by
  unfold visible_ports shown_ports
  congr 1
  funext p
  exact h p.capability

theorem find?_filter_of_find? {α : Type} (f g : α → Bool) (l : List α) (q : α)
    (hfind : l.find? g = some q) (hf : f q = true) : (l.filter f).find? g = some q := by
  induction l with
  | nil => cases hfind
  | cons a l ih =>
    by_cases hg : g a = true
    · rw [List.find?_cons_of_pos _ hg] at hfind
      cases hfind
      rw [List.filter_cons_of_pos hf, List.find?_cons_of_pos _ hg]
    · rw [List.find?_cons_of_neg _ hg] at hfind
      by_cases hfa : f a = true
      · rw [List.filter_cons_of_pos hfa, List.find?_cons_of_neg _ hg]
        exact ih hfind
      · rw [List.filter_cons_of_neg hfa]
        exact ih hfind

/-- A port that the lookup finds and that is shown is the port the enumeration
returns for its number. -/
theorem shown_lookup {K : SeqConsts} {show_all : Bool} {env : Env} {c : Client} {x y : Int}
    {info : snd_seq_port_info_t} (hc : find_client env x = some c)
    (h : find_port env x y = some info) (hs : shown K show_all info.capability = true) :
    ∃ p : Nat, (p : Int) = y ∧ p ∈ (shown_ports K show_all c).map (·.port)
      ∧ ((shown_ports K show_all c).find? fun q => decide ((q.port : Int) = y)).map
          (Port.info c.client) = some info := by
  unfold find_port at h
  rw [hc] at h
  simp only [Option.some_bind, Option.map_eq_some'] at h
  obtain ⟨q, hq, rfl⟩ := h
  have h1 := List.find?_some hq
  have h2 := List.mem_of_find?_eq_some hq
  simp only [decide_eq_true_eq] at h1
  have hmem : q ∈ shown_ports K show_all c := List.mem_filter.2 ⟨h2, hs⟩
  refine ⟨q.port, h1, List.mem_map.2 ⟨q, hmem, rfl⟩, ?_⟩
  unfold shown_ports
  rw [find?_filter_of_find? _ _ _ q hq hs]
  rfl

/-- The port the enumeration returns for a number of the shown list: it has
that number, belongs to the client and is shown. -/
theorem shown_find {K : SeqConsts} {show_all : Bool} {c : Client} {n : Nat}
    (h : n ∈ (shown_ports K show_all c).map (·.port)) :
    ∃ q, ((shown_ports K show_all c).find? fun q => decide ((q.port : Int) = (n : Int)))
        = some q
      ∧ q.port = n ∧ shown K show_all q.capability = true := by
  cases hf : (shown_ports K show_all c).find? (fun q => decide ((q.port : Int) = (n : Int))) with
  | none =>
    rw [List.find?_eq_none] at hf
    obtain ⟨q, hq, rfl⟩ := List.mem_map.1 h
    exact absurd (hf q hq) (by simp)
  | some q =>
    have h1 := List.find?_some hf
    have h2 := List.mem_of_find?_eq_some hf
    simp only [decide_eq_true_eq] at h1
    exact ⟨q, rfl, by exact_mod_cast h1, (List.mem_filter.1 h2).2⟩

theorem shown_ports_length_le (K : SeqConsts) (show_all : Bool) (c : Client) :
    ((shown_ports K show_all c).map (·.port)).length ≤ c.ports.length := by
  rw [List.length_map]
  exact List.length_filter_le _ _

/-! ## The port search as a loop with an invariant -/

theorem do_search_port_ports_spec (K : SeqConsts) (env : Env) (show_all : Bool) (perm : Nat)
    (do_action : action_func_t) (cinfo : snd_seq_client_info_t)
    (Inv : State → Prop) (Q : snd_seq_port_info_t → State → Prop)
    (hlogp : ∀ st c p, Inv st → Inv (st.log (.snd_seq_query_next_port c p)))
    (hqlog : ∀ q st ev, Q q st → Q q (st.log ev))
    (hact : ∀ st cinfo pinfo count, Inv st → check_permission K pinfo perm ≠ 0 →
      ∃ st1, do_action st cinfo pinfo count = some st1 ∧ Inv st1 ∧ Q pinfo st1
        ∧ ∀ q, Q q st → Q q st1)
    (c : Client) (x : Int) (hc : find_client env x = some c) :
    ∀ (fuel : Nat) (st : State) (pinfo : snd_seq_port_info_t) (count : Nat),
      pinfo.client = x → req_ok K show_all pinfo.capability →
      res_ok K show_all pinfo.capability →
      above pinfo.port ((shown_ports K show_all c).map (·.port)) ≤ fuel → Inv st →
      ∃ st1 pinfo1,
        do_search_port_ports K env show_all perm do_action cinfo fuel st pinfo count
          = some (st1, pinfo1)
        ∧ res_ok K show_all pinfo1.capability
        ∧ Inv st1 ∧ (∀ q, Q q st → Q q st1)
        ∧ ∀ (p : Nat) info, pinfo.port < (p : Int) → find_port env x p = some info →
            shown K show_all info.capability = true →
            check_permission K info perm ≠ 0 → Q info st1 := by
  have hxc : (c.client : Int) = x := (find_client_some hc).1
  have hqnone : ∀ (st : State) (pinfo : snd_seq_port_info_t), pinfo.client = x →
      req_ok K show_all pinfo.capability →
      next_id pinfo.port ((shown_ports K show_all c).map (·.port)) = none →
      snd_seq_query_next_port K env st pinfo
        = (st.log (.snd_seq_query_next_port pinfo.client pinfo.port), none) := by
    intro st pinfo hcl hreq hn
    unfold snd_seq_query_next_port
    rw [hcl, hc, Option.some_bind, visible_ports_eq K show_all _ c hreq, hn]
    rfl
  have hnone : ∀ (pinfo : snd_seq_port_info_t),
      next_id pinfo.port ((shown_ports K show_all c).map (·.port)) = none →
      ∀ (p : Nat) info, pinfo.port < (p : Int) → find_port env x p = some info →
        shown K show_all info.capability = true → False := by
    intro pinfo hn p info hp hfind hs
    obtain ⟨p1, hp1, hmem, _⟩ := shown_lookup hc hfind hs
    have : p1 = p := by exact_mod_cast hp1
    subst this
    exact next_id_none hn p1 hmem hp
  intro fuel
  induction fuel with
  | zero =>
    intro st pinfo count hcl hreq hres hfuel hinv
    cases hn : next_id pinfo.port ((shown_ports K show_all c).map (·.port)) with
    | none =>
      refine ⟨_, pinfo, ?_, hres, hlogp st pinfo.client pinfo.port hinv,
        fun q hq => hqlog q st _ hq, ?_⟩
      · simp [do_search_port_ports, hqnone st pinfo hcl hreq hn]
      · intro p info hp hfind hs _
        exact (hnone pinfo hn p info hp hfind hs).elim
    | some n =>
      have := above_lt hn
      omega
  | succ fuel ih =>
    intro st pinfo count hcl hreq hres hfuel hinv
    cases hn : next_id pinfo.port ((shown_ports K show_all c).map (·.port)) with
    | none =>
      refine ⟨_, pinfo, ?_, hres, hlogp st pinfo.client pinfo.port hinv,
        fun q hq => hqlog q st _ hq, ?_⟩
      · simp [do_search_port_ports, hqnone st pinfo hcl hreq hn]
      · intro p info hp hfind hs _
        exact (hnone pinfo hn p info hp hfind hs).elim
    | some n =>
      obtain ⟨hnmem, hcn, hmin⟩ := next_id_some hn
      obtain ⟨qn, hqn, hqport, hqshown⟩ := shown_find hnmem
      have hic : (Port.info c.client qn).client = (c.client : Int) := rfl
      have hip : (Port.info c.client qn).port = (n : Int) := by
        simp [Port.info, hqport]
      have hq : snd_seq_query_next_port K env st pinfo
          = (st.log (.snd_seq_query_next_port pinfo.client pinfo.port),
             some (Port.info c.client qn)) := by
        unfold snd_seq_query_next_port
        rw [hcl, hc, Option.some_bind, visible_ports_eq K show_all _ c hreq, hn,
          Option.some_bind, hqn]
        rfl
      have hinv1 := hlogp st pinfo.client pinfo.port hinv
      have hok := set_show_all_ok K show_all (Port.info c.client qn)
        (res_ok_of_shown K show_all _ hqshown)
      have hfuel1 : above (set_show_all K show_all (Port.info c.client qn)).port
          ((shown_ports K show_all c).map (·.port)) ≤ fuel := by
        rw [(set_show_all_client K show_all _).2, hip]
        have := above_lt hn
        omega
      have hcl1 : (set_show_all K show_all (Port.info c.client qn)).client = x := by
        rw [(set_show_all_client K show_all _).1, hic, hxc]
      have hsame : ∀ (p : Nat) info, p = n → find_port env x p = some info →
          shown K show_all info.capability = true → info = Port.info c.client qn := by
        intro p info hpn hfind hs
        subst hpn
        obtain ⟨_, _, _, hlook⟩ := shown_lookup hc hfind hs
        rw [hqn] at hlook
        simpa using hlook.symm
      have hlater : ∀ (p : Nat) info, p ≠ n → pinfo.port < (p : Int) →
          find_port env x p = some info → shown K show_all info.capability = true →
          (set_show_all K show_all (Port.info c.client qn)).port < (p : Int) := by
        intro p info hpn hp hfind hs
        obtain ⟨p1, hp1, hmem, _⟩ := shown_lookup hc hfind hs
        have : p1 = p := by exact_mod_cast hp1
        subst this
        have := hmin p1 hmem hp
        rw [(set_show_all_client K show_all _).2, hip]
        omega
      by_cases hperm : check_permission K (Port.info c.client qn) perm ≠ 0
      · obtain ⟨st2, hact2, hinv2, hQ2, hst2⟩ :=
          hact _ cinfo (Port.info c.client qn) count hinv1 hperm
        obtain ⟨st3, pinfo3, hloop, hres3, hinv3, hst3, hQ3⟩ :=
          ih st2 (set_show_all K show_all (Port.info c.client qn)) (count + 1) hcl1 hok.1
            hok.2 hfuel1 hinv2
        refine ⟨st3, pinfo3, ?_, hres3, hinv3,
          fun q hq => hst3 q (hst2 q (hqlog q st _ hq)), ?_⟩
        · simp [do_search_port_ports, hq, hperm, hact2, hloop]
        · intro p info hp hfind hs hpermp
          by_cases hpn : p = n
          · rw [hsame p info hpn hfind hs]
            exact hst3 _ hQ2
          · exact hQ3 p info (hlater p info hpn hp hfind hs) hfind hs hpermp
      · obtain ⟨st3, pinfo3, hloop, hres3, hinv3, hst3, hQ3⟩ :=
          ih _ (set_show_all K show_all (Port.info c.client qn)) count hcl1 hok.1 hok.2
            hfuel1 hinv1
        refine ⟨st3, pinfo3, ?_, hres3, hinv3, fun q hq => hst3 q (hqlog q st _ hq), ?_⟩
        · simp [do_search_port_ports, hq, hperm, hloop]
        · intro p info hp hfind hs hpermp
          by_cases hpn : p = n
          · rw [hsame p info hpn hfind hs] at hpermp
            exact absurd hpermp hperm
          · exact hQ3 p info (hlater p info hpn hp hfind hs) hfind hs hpermp

theorem find_port_client {env : Env} {x y : Int} {info : snd_seq_port_info_t}
    (h : find_port env x y = some info) : ∃ c, find_client env x = some c := by
  unfold find_port at h
  cases hc : find_client env x with
  | none => simp [hc] at h
  | some c => exact ⟨c, rfl⟩

theorem do_search_port_clients_spec (K : SeqConsts) (env : Env) (show_all : Bool) (perm : Nat)
    (do_action : action_func_t) (fuel : Nat)
    (Inv : State → Prop) (Q : snd_seq_port_info_t → State → Prop)
    (hlogc : ∀ st c, Inv st → Inv (st.log (.snd_seq_query_next_client c)))
    (hlogp : ∀ st c p, Inv st → Inv (st.log (.snd_seq_query_next_port c p)))
    (hqlog : ∀ q st ev, Q q st → Q q (st.log ev))
    (hact : ∀ st cinfo pinfo count, Inv st → check_permission K pinfo perm ≠ 0 →
      ∃ st1, do_action st cinfo pinfo count = some st1 ∧ Inv st1 ∧ Q pinfo st1
        ∧ ∀ q, Q q st → Q q st1)
    (hfuel : ∀ c ∈ env.clients, c.ports.length ≤ fuel) :
    ∀ (n : Nat) (st : State) (cinfo : snd_seq_client_info_t) (pinfo : snd_seq_port_info_t),
      above cinfo.client (env.clients.map (·.client)) ≤ n →
      res_ok K show_all pinfo.capability → Inv st →
      ∃ st1,
        do_search_port_clients K env show_all perm do_action fuel n st cinfo pinfo = some st1
        ∧ Inv st1 ∧ (∀ q, Q q st → Q q st1)
        ∧ ∀ (cid p : Nat) info, cinfo.client < (cid : Int) →
            find_port env cid p = some info → shown K show_all info.capability = true →
            check_permission K info perm ≠ 0 → Q info st1 := by
  have hnone : ∀ (st : State) (cinfo : snd_seq_client_info_t),
      next_id cinfo.client (env.clients.map (·.client)) = none →
      ∀ (cid p : Nat) info, cinfo.client < (cid : Int) →
        find_port env cid p = some info → False := by
    intro st cinfo hn cid p info hcid hfind
    obtain ⟨c1, hc1⟩ := find_port_client hfind
    obtain ⟨hid, hmem⟩ := find_client_some hc1
    have hid' : c1.client = cid := by exact_mod_cast hid
    exact next_id_none hn cid (List.mem_map.2 ⟨c1, hmem, hid'⟩) hcid
  intro n
  induction n with
  | zero =>
    intro st cinfo pinfo hn0 hres hinv
    cases hn : next_id cinfo.client (env.clients.map (·.client)) with
    | none =>
      refine ⟨_, ?_, hlogc st cinfo.client hinv, fun q hq => hqlog q st _ hq, ?_⟩
      · simp [do_search_port_clients, snd_seq_query_next_client, hn]
      · intro cid p info hcid hfind _ _
        exact (hnone st cinfo hn cid p info hcid hfind).elim
    | some m =>
      have := above_lt hn
      omega
  | succ n ih =>
    intro st cinfo pinfo hn0 hres hinv
    cases hn : next_id cinfo.client (env.clients.map (·.client)) with
    | none =>
      refine ⟨_, ?_, hlogc st cinfo.client hinv, fun q hq => hqlog q st _ hq, ?_⟩
      · simp [do_search_port_clients, snd_seq_query_next_client, hn]
      · intro cid p info hcid hfind _ _
        exact (hnone st cinfo hn cid p info hcid hfind).elim
    | some m =>
      obtain ⟨hmmem, hcm, hmin⟩ := next_id_some hn
      obtain ⟨c, hc, hcid⟩ := find_client_of_mem hmmem
      have hq : snd_seq_query_next_client env st cinfo
          = (st.log (.snd_seq_query_next_client cinfo.client), some c.info) := by
        simp [snd_seq_query_next_client, hn, hc]
      have hinv1 := hlogc st cinfo.client hinv
      have hcinfo : c.info.client = (m : Int) := by simp [Client.info, hcid]
      have hok := set_show_all_ok K show_all
        { { pinfo with client := c.info.client } with port := -1 } hres
      obtain ⟨st2, pinfo2, hports, hres2, hinv2, hst2, hQ2⟩ :=
        do_search_port_ports_spec K env show_all perm do_action c.info Inv Q hlogp hqlog hact
          c (m : Int) hc fuel (st.log (.snd_seq_query_next_client cinfo.client))
          (set_show_all K show_all { { pinfo with client := c.info.client } with port := -1 }) 0
          (by rw [(set_show_all_client K show_all _).1]; exact hcinfo)
          hok.1 hok.2
          (le_trans (above_le_length _ _) (le_trans (shown_ports_length_le K show_all c)
            (hfuel c (find_client_some hc).2)))
          hinv1
      obtain ⟨st3, hloop, hinv3, hst3, hQ3⟩ := ih st2 c.info pinfo2 (by
        rw [hcinfo]
        have := above_lt hn
        omega) hres2 hinv2
      refine ⟨st3, ?_, hinv3, fun q hq => hst3 q (hst2 q (hqlog q st _ hq)), ?_⟩
      · simp [do_search_port_clients, hq, hports, hloop]
      · intro cid p info hltcid hfind hs hperm
        by_cases hcm' : cid = m
        · subst hcm'
          apply hst3
          apply hQ2 p info _ hfind hs hperm
          rw [(set_show_all_client K show_all _).2]
          simp
          omega
        · obtain ⟨c1, hc1⟩ := find_port_client hfind
          obtain ⟨hid, hmem⟩ := find_client_some hc1
          have hid' : c1.client = cid := by exact_mod_cast hid
          have := hmin cid (List.mem_map.2 ⟨c1, hmem, hid'⟩) hltcid
          apply hQ3 cid p info _ hfind hs hperm
          rw [hcinfo]
          omega

/-- The port search under an invariant: when the enumeration queries keep `Inv`
and the callback, on a port that passes `check_permission`, returns, keeps `Inv`
and establishes `Q` of that port, where `Q` once established stays, then a
search whose fuel covers the registry returns, keeps `Inv` and establishes `Q`
of every port of the registry that is shown to the enumeration and passes
`check_permission`. -/
theorem do_search_port_spec (K : SeqConsts) (env : Env) (show_all : Bool) (perm : Nat)
    (do_action : action_func_t) (fuel : Nat)
    (Inv : State → Prop) (Q : snd_seq_port_info_t → State → Prop)
    (hlogc : ∀ st c, Inv st → Inv (st.log (.snd_seq_query_next_client c)))
    (hlogp : ∀ st c p, Inv st → Inv (st.log (.snd_seq_query_next_port c p)))
    (hqlog : ∀ q st ev, Q q st → Q q (st.log ev))
    (hact : ∀ st cinfo pinfo count, Inv st → check_permission K pinfo perm ≠ 0 →
      ∃ st1, do_action st cinfo pinfo count = some st1 ∧ Inv st1 ∧ Q pinfo st1
        ∧ ∀ q, Q q st → Q q st1)
    (hclients : env.clients.length ≤ fuel)
    (hports : ∀ c ∈ env.clients, c.ports.length ≤ fuel)
    (st : State) (hinv : Inv st) :
    ∃ st1, do_search_port K env show_all fuel st perm do_action = some st1
      ∧ Inv st1 ∧ (∀ q, Q q st → Q q st1)
      ∧ ∀ (cid p : Nat) info, find_port env cid p = some info →
          shown K show_all info.capability = true →
          check_permission K info perm ≠ 0 → Q info st1 := by
  obtain ⟨st1, h, hinv1, hst1, hQ1⟩ :=
    do_search_port_clients_spec K env show_all perm do_action fuel Inv Q hlogc hlogp hqlog hact
      hports fuel st { client := -1 } {}
      (le_trans (above_le_length _ _) (by rw [List.length_map]; exact hclients))
      (res_ok_zero K show_all) hinv
  refine ⟨st1, h, hinv1, hst1, ?_⟩
  intro cid p info hfind hs hperm
  exact hQ1 cid p info (by simp; omega) hfind hs hperm

/-! ## The sweep of one port -/

theorem query_port_subscribers_eq (st : State) (q : snd_seq_query_subscribe_t) :
    snd_seq_query_port_subscribers st q
      = (st.log (.snd_seq_query_port_subscribers q.root q.type q.index),
         ((subscribers st q.root q.type).get? q.index).map fun s =>
           { q with addr := peer_addr q.type s, queue := s.queue, exclusive := s.exclusive,
                    time_update := s.time_update, time_real := s.time_real }) := rfl

theorem subscribers_log (st : State) (ev : Call) (root : snd_seq_addr_t)
    (type : snd_seq_query_subs_type_t) :
    subscribers (st.log ev) root type = subscribers st root type := by
  cases type <;> rfl

theorem remove_connection_body_cases (K : SeqConsts) (env : Env) (st : State)
    (q : snd_seq_query_subscribe_t) (subs : snd_seq_port_subscribe_t) :
    ∃ st1 q1 subs1, remove_connection_body K env st q subs = (st1, q1, subs1)
      ∧ q1.root = q.root ∧ q1.type = q.type
      ∧ st1.stdout = st.stdout ∧ st1.stderr = st.stderr
      ∧ ((removable_dest K env q.addr = false ∧ st1.subs = st.subs ∧ q1.index = q.index + 1
            ∧ st1.calls = st.calls ++ [.snd_seq_get_any_port_info q.addr.client q.addr.port])
        ∨ (removable_dest K env q.addr = true
            ∧ (env.unsubscribe_denied q.root q.addr = true
                ∨ st.subs.any (links q.root q.addr) = false)
            ∧ st1.subs = st.subs ∧ q1.index = q.index + 1
            ∧ st1.calls = st.calls ++ [.snd_seq_get_any_port_info q.addr.client q.addr.port,
                .snd_seq_unsubscribe_port q.root q.addr])
        ∨ (removable_dest K env q.addr = true
            ∧ env.unsubscribe_denied q.root q.addr = false
            ∧ st.subs.any (links q.root q.addr) = true
            ∧ st1.subs = st.subs.eraseP (links q.root q.addr) ∧ q1.index = q.index
            ∧ st1.calls = st.calls ++ [.snd_seq_get_any_port_info q.addr.client q.addr.port,
                .snd_seq_unsubscribe_port q.root q.addr])) := by
  unfold remove_connection_body removable_dest
  simp only [snd_seq_get_any_port_info]
  cases hf : find_port env q.addr.client q.addr.port with
  | none =>
    refine ⟨_, _, _, rfl, ?_⟩
    simp [State.log]
  | some port =>
    by_cases hcap : port.capability &&& K.SND_SEQ_PORT_CAP_SUBS_WRITE = 0
        ∨ port.capability &&& K.SND_SEQ_PORT_CAP_NO_EXPORT ≠ 0
    · have hrem : (decide (port.capability &&& K.SND_SEQ_PORT_CAP_SUBS_WRITE ≠ 0)
          && decide (port.capability &&& K.SND_SEQ_PORT_CAP_NO_EXPORT = 0)) = false := by
        rcases hcap with h | h <;> simp [h]
      simp only [hcap, if_true, hrem]
      refine ⟨_, _, _, rfl, ?_⟩
      simp [State.log]
    · have hrem : (decide (port.capability &&& K.SND_SEQ_PORT_CAP_SUBS_WRITE ≠ 0)
          && decide (port.capability &&& K.SND_SEQ_PORT_CAP_NO_EXPORT = 0)) = true := by
        push_neg at hcap
        simp [hcap.1, hcap.2]
      simp only [hcap, if_false, hrem]
      unfold snd_seq_unsubscribe_port
      by_cases hden : env.unsubscribe_denied q.root q.addr = true
      · simp only [hden, if_true]
        refine ⟨_, _, _, rfl, ?_⟩
        simp [State.log]
      · by_cases hany : st.subs.any (links q.root q.addr) = true
        · have hany1 : (st.log (.snd_seq_get_any_port_info q.addr.client q.addr.port)).subs.any
              (links q.root q.addr) = true := hany
          simp only [hden, hany1, if_true, if_false]
          refine ⟨_, _, _, rfl, ?_⟩
          simp [State.log, hden, hany]
        · have hany1 : (st.log (.snd_seq_get_any_port_info q.addr.client q.addr.port)).subs.any
              (links q.root q.addr) = false := by simpa using hany
          simp only [hden, hany1, if_false]
          refine ⟨_, _, _, rfl, ?_⟩
          simp [State.log, hden, hany]

theorem links_sender {sender dest : snd_seq_addr_t} {s : snd_seq_port_subscribe_t}
    (h : links sender dest s = true) : s.sender = sender ∧ s.dest = dest := by
  simpa [links] using h

theorem filter_sender_eraseP (l : List snd_seq_port_subscribe_t) (root dest : snd_seq_addr_t) :
    (l.eraseP (links root dest)).filter (fun s => decide (s.sender = root))
      = (l.filter (fun s => decide (s.sender = root))).eraseP (links root dest) := by
  rw [List.eraseP_filter]
  congr 2
  funext x
  by_cases h : links root dest x = true
  · simp [h, (links_sender h).1]
  · simp [h]

theorem read_count_eraseP (st st1 : State) (root dest : snd_seq_addr_t)
    (hany : st.subs.any (links root dest) = true)
    (h : st1.subs = st.subs.eraseP (links root dest)) :
    read_count st1 root + 1 = read_count st root := by
  unfold read_count subscribers
  simp only [h, filter_sender_eraseP, List.length_eraseP]
  have hany1 : (st.subs.filter (fun s => decide (s.sender = root))).any (links root dest)
      = true := by
    rw [List.any_eq_true] at hany ⊢
    obtain ⟨x, hx, hl⟩ := hany
    exact ⟨x, List.mem_filter.2 ⟨hx, by simp [(links_sender hl).1]⟩, hl⟩
  rw [if_pos hany1]
  have hpos : 0 < (st.subs.filter (fun s => decide (s.sender = root))).length := by
    rw [List.any_eq_true] at hany1
    obtain ⟨x, hx, _⟩ := hany1
    exact List.length_pos_of_mem hx
  omega

/-- The entry a successful read query of index `q.index` returns for the
subscription `s`. -/
theorem query_some (st : State) (q : snd_seq_query_subscribe_t)
    (s : snd_seq_port_subscribe_t) (ht : q.type = .SND_SEQ_QUERY_SUBS_READ)
    (h : (subscribers st q.root .SND_SEQ_QUERY_SUBS_READ).get? q.index = some s) :
    snd_seq_query_port_subscribers st q
      = (st.log (.snd_seq_query_port_subscribers q.root q.type q.index),
         some { q with addr := s.dest, queue := s.queue, exclusive := s.exclusive,
                       time_update := s.time_update, time_real := s.time_real }) := by
  rw [query_port_subscribers_eq, ht, h]
  rfl

theorem query_none (st : State) (q : snd_seq_query_subscribe_t)
    (ht : q.type = .SND_SEQ_QUERY_SUBS_READ)
    (h : (subscribers st q.root .SND_SEQ_QUERY_SUBS_READ).get? q.index = none) :
    snd_seq_query_port_subscribers st q
      = (st.log (.snd_seq_query_port_subscribers q.root q.type q.index), none) := by
  rw [query_port_subscribers_eq, ht, h]
  rfl

/-- The sweep loop under an invariant `R` of the state and the query: when one
pass through the body keeps `R` and `R` at the exit gives `Post`, the loop,
given fuel for `read_count - index` passes, returns a state with `Post`. -/
theorem remove_connection_loop_spec (K : SeqConsts) (env : Env)
    (R : State → snd_seq_query_subscribe_t → Prop) (Post : State → Prop)
    (hexit : ∀ st q, R st q → q.type = .SND_SEQ_QUERY_SUBS_READ →
      (subscribers st q.root .SND_SEQ_QUERY_SUBS_READ).get? q.index = none →
      Post (st.log (.snd_seq_query_port_subscribers q.root q.type q.index)))
    (hstep : ∀ st q s subs st1 q1 subs1, R st q → q.type = .SND_SEQ_QUERY_SUBS_READ →
      (subscribers st q.root .SND_SEQ_QUERY_SUBS_READ).get? q.index = some s →
      remove_connection_body K env
        (st.log (.snd_seq_query_port_subscribers q.root q.type q.index))
        { q with addr := s.dest, queue := s.queue, exclusive := s.exclusive,
                 time_update := s.time_update, time_real := s.time_real } subs
        = (st1, q1, subs1) →
      R st1 q1) :
    ∀ (fuel : Nat) (st : State) (q : snd_seq_query_subscribe_t)
      (subs : snd_seq_port_subscribe_t),
      q.type = .SND_SEQ_QUERY_SUBS_READ → read_count st q.root - q.index ≤ fuel → R st q →
      ∃ st1, remove_connection_loop K env fuel st q subs = some st1 ∧ Post st1 := by
  intro fuel
  induction fuel with
  | zero =>
    intro st q subs ht hfuel hR
    cases hg : (subscribers st q.root .SND_SEQ_QUERY_SUBS_READ).get? q.index with
    | none =>
      refine ⟨_, ?_, hexit st q hR ht hg⟩
      simp [remove_connection_loop, query_none st q ht hg]
    | some s =>
      have := (List.get?_eq_some.1 hg).1
      unfold read_count at hfuel
      omega
  | succ fuel ih =>
    intro st q subs ht hfuel hR
    cases hg : (subscribers st q.root .SND_SEQ_QUERY_SUBS_READ).get? q.index with
    | none =>
      refine ⟨_, ?_, hexit st q hR ht hg⟩
      simp [remove_connection_loop, query_none st q ht hg]
    | some s =>
      have hlt := (List.get?_eq_some.1 hg).1
      obtain ⟨st1, q1, subs1, hbody, hroot, htype, _, _, hcases⟩ :=
        remove_connection_body_cases K env
          (st.log (.snd_seq_query_port_subscribers q.root q.type q.index))
          { q with addr := s.dest, queue := s.queue, exclusive := s.exclusive,
                   time_update := s.time_update, time_real := s.time_real } subs
      have hR1 := hstep st q s subs st1 q1 subs1 hR ht hg hbody
      have hfuel1 : read_count st1 q1.root - q1.index ≤ fuel := by
        simp only at hroot
        rw [hroot]
        rcases hcases with ⟨_, hsubs, hidx, _⟩ | ⟨_, _, hsubs, hidx, _⟩ | ⟨_, _, hany, hsubs, hidx, _⟩
        · have : read_count st1 q.root = read_count st q.root := by
            unfold read_count subscribers; rw [hsubs]; rfl
          simp only at hidx
          unfold read_count at this hfuel ⊢
          omega
        · have : read_count st1 q.root = read_count st q.root := by
            unfold read_count subscribers; rw [hsubs]; rfl
          simp only at hidx
          unfold read_count at this hfuel ⊢
          omega
        · have := read_count_eraseP
            (st.log (.snd_seq_query_port_subscribers q.root q.type q.index)) st1 q.root s.dest
            hany hsubs
          have h2 : read_count (st.log (.snd_seq_query_port_subscribers q.root q.type q.index))
              q.root = read_count st q.root := rfl
          simp only at hidx
          unfold read_count at this h2 hfuel ⊢
          omega
      obtain ⟨st2, hloop, hpost⟩ := ih st1 q1 subs1 (by rw [htype]; exact ht) hfuel1 hR1
      refine ⟨st2, ?_, hpost⟩
      simp [remove_connection_loop, query_some st q s ht hg, hbody, hloop]

theorem read_count_of_subs_eq {st st1 : State} (root : snd_seq_addr_t)
    (h : st1.subs = st.subs) : read_count st1 root = read_count st root := by
  unfold read_count subscribers
  rw [h]

theorem remove_connection_body_measure (K : SeqConsts) (env : Env) (st st1 : State)
    (q r : snd_seq_query_subscribe_t) (subs : snd_seq_port_subscribe_t)
    (ht : q.type = .SND_SEQ_QUERY_SUBS_READ)
    (hq : snd_seq_query_port_subscribers st q = (st1, some r)) :
    q.index < read_count st q.root
    ∧ (remove_connection_body K env st1 r subs).2.1.root = q.root
    ∧ (remove_connection_body K env st1 r subs).2.1.type = q.type
    ∧ (((remove_connection_body K env st1 r subs).2.1.index = q.index + 1
          ∧ read_count (remove_connection_body K env st1 r subs).1 q.root
              = read_count st q.root)
        ∨ ((remove_connection_body K env st1 r subs).2.1.index = q.index
          ∧ read_count (remove_connection_body K env st1 r subs).1 q.root + 1
              = read_count st q.root)) := by
  rw [query_port_subscribers_eq, ht] at hq
  simp only [Prod.mk.injEq, Option.map_eq_some'] at hq
  obtain ⟨hst1, s, hg, hr⟩ := hq
  have hlt := (List.get?_eq_some.1 hg).1
  obtain ⟨st2, q2, subs2, hbody, hroot, htype, _, _, hcases⟩ :=
    remove_connection_body_cases K env st1 r subs
  have hrr : r.root = q.root := by rw [← hr]
  have hri : r.index = q.index := by rw [← hr]
  have hrt : r.type = q.type := by rw [← hr, ht]
  have hc1 : read_count st1 q.root = read_count st q.root := by
    rw [← hst1]; rfl
  rw [hbody]
  refine ⟨hlt, by rw [← hrr]; exact hroot, by rw [← hrt]; exact htype, ?_⟩
  rcases hcases with ⟨_, hsubs, hidx, _⟩ | ⟨_, _, hsubs, hidx, _⟩ | ⟨_, _, hany, hsubs, hidx, _⟩
  · left
    exact ⟨by rw [← hri]; exact hidx, by rw [read_count_of_subs_eq _ hsubs, hc1]⟩
  · left
    exact ⟨by rw [← hri]; exact hidx, by rw [read_count_of_subs_eq _ hsubs, hc1]⟩
  · right
    refine ⟨by rw [← hri]; exact hidx, ?_⟩
    rw [hrr] at hany hsubs
    rw [← hc1]
    exact read_count_eraseP st1 st2 q.root r.addr hany hsubs

/-- C10. The sweep loop of remove_connection terminates for every port and every
service state, whichever unsubscribe calls the service refuses.  A read query
succeeds exactly when its index is below the number of read-subscriptions of the
root; one pass through the loop body after a successful query either raises the
index by one and leaves that number, or leaves the index and lowers that number
by one, so that (count - index) strictly decreases; the loop returns when given
fuel for (count - index) passes, and
remove_connection returns when given fuel for as many passes as the port has
read-subscriptions. -/
theorem C10_sweep_loop_terminates (K : SeqConsts) (env : Env) :
    (∀ (st : State) (q : snd_seq_query_subscribe_t), q.type = .SND_SEQ_QUERY_SUBS_READ →
      ((snd_seq_query_port_subscribers st q).2.isSome = true ↔ q.index < read_count st q.root))
    ∧ (∀ (st st1 : State) (q r : snd_seq_query_subscribe_t) (subs : snd_seq_port_subscribe_t),
        q.type = .SND_SEQ_QUERY_SUBS_READ →
        snd_seq_query_port_subscribers st q = (st1, some r) →
        (((remove_connection_body K env st1 r subs).2.1.index = q.index + 1
            ∧ read_count (remove_connection_body K env st1 r subs).1 q.root
                = read_count st q.root)
          ∨ ((remove_connection_body K env st1 r subs).2.1.index = q.index
            ∧ read_count (remove_connection_body K env st1 r subs).1 q.root + 1
                = read_count st q.root))
        ∧ read_count (remove_connection_body K env st1 r subs).1 q.root
            - (remove_connection_body K env st1 r subs).2.1.index
          < read_count st q.root - q.index)
    ∧ (∀ (fuel : Nat) (st : State) (q : snd_seq_query_subscribe_t)
        (subs : snd_seq_port_subscribe_t), q.type = .SND_SEQ_QUERY_SUBS_READ →
        read_count st q.root - q.index ≤ fuel →
        ∃ st1, remove_connection_loop K env fuel st q subs = some st1)
    ∧ (∀ (fuel : Nat) (st : State) (info : snd_seq_client_info_t)
        (pinfo : snd_seq_port_info_t) (count : Nat),
        read_count st (snd_seq_port_info_get_addr pinfo) ≤ fuel →
        ∃ st1, remove_connection K env fuel st info pinfo count = some st1) := by
  have hloop : ∀ (fuel : Nat) (st : State) (q : snd_seq_query_subscribe_t)
      (subs : snd_seq_port_subscribe_t), q.type = .SND_SEQ_QUERY_SUBS_READ →
      read_count st q.root - q.index ≤ fuel →
      ∃ st1, remove_connection_loop K env fuel st q subs = some st1 := by
    intro fuel st q subs ht hfuel
    obtain ⟨st1, h, _⟩ := remove_connection_loop_spec K env (fun _ _ => True) (fun _ => True)
      (fun _ _ _ _ _ => trivial) (fun _ _ _ _ _ _ _ _ _ _ _ => trivial) fuel st q subs ht hfuel
      trivial
    exact ⟨st1, h⟩
  refine ⟨?_, ?_, hloop, ?_⟩
  · intro st q ht
    rw [query_port_subscribers_eq, ht]
    simp only [Option.isSome_map']
    unfold read_count
    cases hg : (subscribers st q.root .SND_SEQ_QUERY_SUBS_READ).get? q.index with
    | none =>
      have := List.get?_eq_none.1 hg
      simp
      omega
    | some s =>
      have := (List.get?_eq_some.1 hg).1
      simpa using this
  · intro st st1 q r subs ht hq
    obtain ⟨hlt, _, _, hcases⟩ := remove_connection_body_measure K env st st1 q r subs ht hq
    refine ⟨hcases, ?_⟩
    rcases hcases with ⟨h1, h2⟩ | ⟨h1, h2⟩ <;> omega
  · intro fuel st info pinfo count hfuel
    unfold remove_connection
    exact hloop fuel st _ _ rfl (by simpa using hfuel)

theorem C10_witness :
    ∃ st1, remove_connection alsa_consts env_refusing 2 st_two_subs {}
        { client := 128, port := 0 } 0 = some st1 :=
  (C10_sweep_loop_terminates alsa_consts env_refusing).2.2.2 2 st_two_subs {}
    { client := 128, port := 0 } 0 (by decide)

/-! ## The sweep removes every removable subscription of a visited port -/

theorem take_eraseP_of_forall_not {α : Type} (p : α → Bool) (l : List α) (i : Nat)
    (hi : i ≤ l.length) (h : ∀ x ∈ l.take i, ¬ p x = true) :
    (l.eraseP p).take i = l.take i := by
  conv_lhs => rw [← List.take_append_drop i l]
  rw [List.eraseP_append_right _ h]
  have hlen : (l.take i).length = i := by simp [hi]
  conv_lhs => rw [← hlen]
  simp

theorem remove_connection_removes (K : SeqConsts) (env : Env)
    (hden : ∀ a b, env.unsubscribe_denied a b = false)
    (fuel : Nat) (st : State) (info : snd_seq_client_info_t) (pinfo : snd_seq_port_info_t)
    (count : Nat) (hfuel : st.subs.length ≤ fuel) :
    ∃ st1, remove_connection K env fuel st info pinfo count = some st1
      ∧ List.Sublist st1.subs st.subs
      ∧ ∀ s ∈ st1.subs, s.sender = snd_seq_port_info_get_addr pinfo →
          removable_dest K env s.dest = false := by
  unfold remove_connection
  have hspec := remove_connection_loop_spec K env
    (fun st1 q => q.root = snd_seq_port_info_get_addr pinfo ∧ List.Sublist st1.subs st.subs
      ∧ ∀ s ∈ (subscribers st1 q.root .SND_SEQ_QUERY_SUBS_READ).take q.index,
          removable_dest K env s.dest = false)
    (fun st1 => List.Sublist st1.subs st.subs
      ∧ ∀ s ∈ st1.subs, s.sender = snd_seq_port_info_get_addr pinfo →
          removable_dest K env s.dest = false)
    ?_ ?_ fuel st
    { root := snd_seq_port_info_get_addr pinfo, type := .SND_SEQ_QUERY_SUBS_READ, index := 0 } {}
    rfl ?_ ?_
  · exact hspec
  · -- exit
    rintro st1 q ⟨hroot, hsub, htake⟩ _ hg
    refine ⟨hsub, ?_⟩
    intro s hs hsender
    have hlen := List.get?_eq_none.1 hg
    apply htake s
    rw [List.take_of_length_le hlen, hroot]
    exact List.mem_filter.2 ⟨hs, by simp [hsender]⟩
  · -- one pass
    rintro st1 q s subs st2 q2 subs2 ⟨hroot, hsub, htake⟩ ht hg hbody
    have hlt := (List.get?_eq_some.1 hg).1
    have hsmem : s ∈ subscribers st1 q.root .SND_SEQ_QUERY_SUBS_READ := List.get?_mem hg
    have hs1 : s ∈ st1.subs ∧ s.sender = q.root := by
      have := List.mem_filter.1 hsmem
      exact ⟨this.1, by simpa using this.2⟩
    obtain ⟨st2', q2', subs2', hbody', hroot', _, _, _, hcases⟩ :=
      remove_connection_body_cases K env
        (st1.log (.snd_seq_query_port_subscribers q.root q.type q.index))
        { q with addr := s.dest, queue := s.queue, exclusive := s.exclusive,
                 time_update := s.time_update, time_real := s.time_real } subs
    rw [hbody] at hbody'
    simp only [Prod.mk.injEq] at hbody'
    obtain ⟨rfl, rfl, rfl⟩ := hbody'
    simp only at hroot' hcases
    have hlogsubs : (st1.log (.snd_seq_query_port_subscribers q.root q.type q.index)).subs
        = st1.subs := rfl
    rw [hlogsubs] at hcases
    refine ⟨by rw [hroot', hroot], ?_, ?_⟩
    · rcases hcases with ⟨_, hsubs, _⟩ | ⟨_, _, hsubs, _⟩ | ⟨_, _, _, hsubs, _⟩
      · rw [hsubs]; exact hsub
      · rw [hsubs]; exact hsub
      · rw [hsubs]; exact (List.eraseP_sublist _).trans hsub
    · rw [hroot']
      rcases hcases with ⟨hrem, hsubs, hidx, _⟩ | ⟨_, hbad, _⟩ | ⟨hrem, _, _, hsubs, hidx, _⟩
      · have hsame : subscribers st2 q.root .SND_SEQ_QUERY_SUBS_READ
            = subscribers st1 q.root .SND_SEQ_QUERY_SUBS_READ := by
          unfold subscribers; rw [hsubs]
        rw [hsame, hidx, List.take_succ, ← List.get?_eq_getElem?, hg]
        intro x hx
        rcases List.mem_append.1 hx with hx | hx
        · exact htake x hx
        · simp only [Option.toList, List.mem_singleton] at hx
          rw [hx]; exact hrem
      · exfalso
        rcases hbad with hbad | hbad
        · rw [hden] at hbad; cases hbad
        · have : st1.subs.any (links q.root s.dest) = true :=
            List.any_eq_true.2 ⟨s, hs1.1, by simp [links, hs1.2]⟩
          rw [this] at hbad; cases hbad
      · have hsame : subscribers st2 q.root .SND_SEQ_QUERY_SUBS_READ
            = (subscribers st1 q.root .SND_SEQ_QUERY_SUBS_READ).eraseP (links q.root s.dest) := by
          unfold subscribers; rw [hsubs]; exact filter_sender_eraseP _ _ _
        rw [hsame, hidx, take_eraseP_of_forall_not _ _ _ (le_of_lt hlt)]
        · exact htake
        · intro x hx hlinks
          have := htake x hx
          rw [(links_sender hlinks).2, hrem] at this
          cases this
  · -- fuel
    simp only [Nat.sub_zero]
    exact le_trans (List.length_filter_le _ _) hfuel
  · -- the invariant holds at the start
    exact ⟨rfl, List.Sublist.refl _, by simp⟩

theorem check_permission_zero (K : SeqConsts) (pinfo : snd_seq_port_info_t) :
    check_permission K pinfo 0 ≠ 0 ↔ pinfo.capability &&& K.SND_SEQ_PORT_CAP_NO_EXPORT = 0 := by
  unfold check_permission
  by_cases h : pinfo.capability &&& K.SND_SEQ_PORT_CAP_NO_EXPORT = 0
  · simp [h]
  · simp [h]

theorem find_port_addr {env : Env} {a : snd_seq_addr_t} {info : snd_seq_port_info_t}
    (h : find_port env a.client a.port = some info) : snd_seq_port_info_get_addr info = a := by
  obtain ⟨c, hc⟩ := find_port_client h
  obtain ⟨h1, h2, _⟩ := find_port_some hc h
  have h3 := (find_client_some hc).1
  unfold snd_seq_port_info_get_addr
  cases a
  simp only [snd_seq_addr_t.mk.injEq]
  simp only at h2 h3
  rw [h1, h2, h3]
  simp

/-- C1 (amended). In a service that refuses no unsubscribe call,
remove_all_connections, given fuel that covers the registry and the
subscriptions, returns, and afterwards no subscription remains whose sender port
is swept (it can be looked up, has NO_EXPORT clear, and is shown to the
enumeration: it is active, or the headers define the inactive bit and show_all
is set) and whose destination port has SUBS_WRITE set and NO_EXPORT clear. -/
theorem C1_remove_all_leaves_no_removable (K : SeqConsts) (env : Env) (show_all : Bool)
    (fuel : Nat) (st : State)
    (hden : ∀ a b, env.unsubscribe_denied a b = false)
    (hclients : env.clients.length ≤ fuel)
    (hports : ∀ c ∈ env.clients, c.ports.length ≤ fuel)
    (hsubs : st.subs.length ≤ fuel) :
    ∃ st1, remove_all_connections K env show_all fuel st = some st1
      ∧ ∀ s ∈ st1.subs,
          ¬ (swept_sender K env show_all s.sender = true
              ∧ removable_dest K env s.dest = true) := by
  unfold remove_all_connections
  obtain ⟨st1, h, _, _, hQ⟩ := do_search_port_spec K env show_all 0
    (remove_connection K env fuel) fuel
    (fun st1 => st1.subs.length ≤ fuel)
    (fun pinfo st1 => ∀ s ∈ st1.subs, s.sender = snd_seq_port_info_get_addr pinfo →
      removable_dest K env s.dest = false)
    (fun _ _ h => h) (fun _ _ _ h => h) (fun _ _ _ h => h)
    (by
      intro st0 cinfo pinfo count hinv _
      obtain ⟨st1, h1, hsub, hrem⟩ :=
        remove_connection_removes K env hden fuel st0 cinfo pinfo count hinv
      exact ⟨st1, h1, le_trans hsub.length_le hinv, hrem,
        fun q hq s hs => hq s (hsub.subset hs)⟩)
    hclients hports st hsubs
  refine ⟨st1, h, ?_⟩
  rintro s hs ⟨hexp, hrem⟩
  unfold swept_sender at hexp
  cases hf : find_port env s.sender.client s.sender.port with
  | none => simp [hf] at hexp
  | some port =>
    simp only [hf, Bool.and_eq_true, decide_eq_true_eq] at hexp
    have := hQ s.sender.client s.sender.port port hf hexp.2
      ((check_permission_zero K port).2 hexp.1) s hs (find_port_addr hf).symm
    rw [this] at hrem
    cases hrem

theorem C1_witness :
    ∃ st1, remove_all_connections alsa_consts env_exported false 2 st_two_subs = some st1
      ∧ ∀ s ∈ st1.subs,
          ¬ (swept_sender alsa_consts env_exported false s.sender = true
              ∧ removable_dest alsa_consts env_exported s.dest = true) :=
  C1_remove_all_leaves_no_removable alsa_consts env_exported false 2 st_two_subs
    (fun _ _ => rfl) (by decide) (by decide) (by decide)

/-- C1 as stated fails: the sender `128:0` is marked no-export, so
check_permission returns 0 for it and the sweep does not visit it; the sender
`20:1` is inactive, so without show_all the enumeration is not shown it.  The
subscriptions of both to `129:0`, a destination with SUBS_WRITE set and
NO_EXPORT clear, remain after remove_all_connections. -/
theorem C1_counterexample :
    ∃ st1, remove_all_connections alsa_consts env_unswept false 3 st_unswept = some st1
      ∧ (∃ s ∈ st1.subs, s.sender = ⟨128, 0⟩
          ∧ removable_dest alsa_consts env_unswept s.dest = true)
      ∧ (∃ s ∈ st1.subs, s.sender = ⟨20, 1⟩
          ∧ removable_dest alsa_consts env_unswept s.dest = true) :=
  ⟨_, rfl,
   ⟨⟨⟨128, 0⟩, ⟨129, 0⟩, 0, false, false, false⟩, by decide, rfl, by decide⟩,
   ⟨⟨⟨20, 1⟩, ⟨129, 0⟩, 0, false, false, false⟩, by decide, rfl, by decide⟩⟩

/-! ## What the sweep leaves untouched -/

theorem filter_eraseP_of_not {α : Type} (p f : α → Bool) (l : List α)
    (h : ∀ x, p x = true → f x = false) : (l.eraseP p).filter f = l.filter f := by
  induction l with
  | nil => rfl
  | cons a l ih =>
    by_cases hp : p a = true
    · rw [List.eraseP_cons_of_pos hp, List.filter_cons_of_neg (by simp [h a hp])]
    · rw [List.eraseP_cons_of_neg hp]
      by_cases hf : f a = true
      · rw [List.filter_cons_of_pos hf, List.filter_cons_of_pos hf, ih]
      · rw [List.filter_cons_of_neg hf, List.filter_cons_of_neg hf, ih]

theorem SweepFrame.refl (K : SeqConsts) (env : Env) (st : State) : SweepFrame K env st st :=
  ⟨List.Sublist.refl _, rfl, rfl, rfl, [], by simp, by simp⟩

theorem SweepFrame.log (K : SeqConsts) (env : Env) {st st1 : State} (ev : Call)
    (h : SweepFrame K env st st1) (hev : sweep_call K env ev = true) :
    SweepFrame K env st (st1.log ev) := by
  obtain ⟨h1, h2, h3, h4, tr, h5, h6⟩ := h
  refine ⟨h1, h2, h3, h4, tr ++ [ev], ?_, ?_⟩
  · simp [State.log, h5]
  · intro e he
    rcases List.mem_append.1 he with he | he
    · exact h6 e he
    · simp only [List.mem_singleton] at he
      rw [he]; exact hev

theorem SweepFrame.trans (K : SeqConsts) (env : Env) {st st1 st2 : State}
    (h : SweepFrame K env st st1) (h' : SweepFrame K env st1 st2) : SweepFrame K env st st2 := by
  obtain ⟨h1, h2, h3, h4, tr, h5, h6⟩ := h
  obtain ⟨h1', h2', h3', h4', tr', h5', h6'⟩ := h'
  refine ⟨h1'.trans h1, h2'.trans h2, h3'.trans h3, h4'.trans h4, tr ++ tr', ?_, ?_⟩
  · rw [h5', h5, List.append_assoc]
  · intro e he
    rcases List.mem_append.1 he with he | he
    · exact h6 e he
    · exact h6' e he

theorem remove_connection_body_frame (K : SeqConsts) (env : Env) (st st1 : State)
    (q q1 : snd_seq_query_subscribe_t) (subs subs1 : snd_seq_port_subscribe_t)
    (h : remove_connection_body K env st q subs = (st1, q1, subs1)) :
    SweepFrame K env st st1 := by
  obtain ⟨st2, q2, subs2, hbody, _, _, hout, herr, hcases⟩ :=
    remove_connection_body_cases K env st q subs
  rw [h] at hbody
  simp only [Prod.mk.injEq] at hbody
  obtain ⟨rfl, rfl, rfl⟩ := hbody
  rcases hcases with ⟨_, hsubs, _, htr⟩ | ⟨hrem, _, hsubs, _, htr⟩ | ⟨hrem, _, _, hsubs, _, htr⟩
  · refine ⟨by rw [hsubs], by rw [hsubs], hout, herr, _, htr, ?_⟩
    intro ev hev
    simp only [List.mem_singleton] at hev
    rw [hev]; rfl
  · refine ⟨by rw [hsubs], by rw [hsubs], hout, herr, _, htr, ?_⟩
    intro ev hev
    simp only [List.mem_cons, List.mem_singleton, List.not_mem_nil, or_false] at hev
    rcases hev with rfl | rfl
    · rfl
    · exact hrem
  · refine ⟨by rw [hsubs]; exact List.eraseP_sublist _, ?_, hout, herr, _, htr, ?_⟩
    · rw [hsubs]
      apply filter_eraseP_of_not
      intro x hx
      rw [(links_sender hx).2, hrem]; rfl
    · intro ev hev
      simp only [List.mem_cons, List.mem_singleton, List.not_mem_nil, or_false] at hev
      rcases hev with rfl | rfl
      · rfl
      · exact hrem

theorem remove_connection_frame (K : SeqConsts) (env : Env) (fuel : Nat) (st : State)
    (info : snd_seq_client_info_t) (pinfo : snd_seq_port_info_t) (count : Nat)
    (hfuel : st.subs.length ≤ fuel) :
    ∃ st1, remove_connection K env fuel st info pinfo count = some st1
      ∧ SweepFrame K env st st1 := by
  unfold remove_connection
  refine remove_connection_loop_spec K env (fun st1 _ => SweepFrame K env st st1)
    (fun st1 => SweepFrame K env st st1) ?_ ?_ fuel st _ {} rfl ?_ (SweepFrame.refl K env st)
  · intro st1 q hR _ _
    exact hR.log K env (.snd_seq_query_port_subscribers q.root q.type q.index) rfl
  · intro st1 q s subs st2 q2 subs2 hR _ _ hbody
    exact (hR.log K env (.snd_seq_query_port_subscribers q.root q.type q.index) rfl).trans K env
      (remove_connection_body_frame K env _ _ _ _ _ _ hbody)
  · simp only [Nat.sub_zero]
    exact le_trans (List.length_filter_le _ _) hfuel

theorem remove_all_connections_frame (K : SeqConsts) (env : Env) (show_all : Bool)
    (fuel : Nat) (st : State)
    (hclients : env.clients.length ≤ fuel)
    (hports : ∀ c ∈ env.clients, c.ports.length ≤ fuel)
    (hsubs : st.subs.length ≤ fuel) :
    ∃ st1, remove_all_connections K env show_all fuel st = some st1
      ∧ SweepFrame K env st st1 := by
  unfold remove_all_connections
  obtain ⟨st1, h, hinv, _, _⟩ := do_search_port_spec K env show_all 0
    (remove_connection K env fuel) fuel
    (fun st1 => SweepFrame K env st st1)
    (fun _ _ => True)
    (fun _ c h => h.log K env (.snd_seq_query_next_client c) rfl)
    (fun _ c p h => h.log K env (.snd_seq_query_next_port c p) rfl) (fun _ _ _ h => h)
    (by
      intro st0 cinfo pinfo count hinv _
      obtain ⟨st1, h1, hfr⟩ := remove_connection_frame K env fuel st0 cinfo pinfo count
        (le_trans hinv.1.length_le hsubs)
      exact ⟨st1, h1, hinv.trans K env hfr, trivial, fun _ _ => trivial⟩)
    hclients hports st (SweepFrame.refl K env st)
  exact ⟨st1, h, hinv⟩

/-- C8. For every service state, whichever unsubscribe calls the service refuses,
remove_all_connections, given fuel that covers the registry and the
subscriptions, returns; every unsubscribe call it has issued names a destination
whose port can be looked up, has SUBS_WRITE set and NO_EXPORT clear; and the
subscriptions whose destination is not such a port are after the sweep exactly
what they were before it. -/
theorem C8_remove_all_keeps_unremovable (K : SeqConsts) (env : Env) (show_all : Bool)
    (fuel : Nat) (st : State)
    (hclients : env.clients.length ≤ fuel)
    (hports : ∀ c ∈ env.clients, c.ports.length ≤ fuel)
    (hsubs : st.subs.length ≤ fuel) :
    ∃ st1, remove_all_connections K env show_all fuel st = some st1
      ∧ (∃ tr, st1.calls = st.calls ++ tr
          ∧ ∀ sender dest, Call.snd_seq_unsubscribe_port sender dest ∈ tr →
              removable_dest K env dest = true)
      ∧ st1.subs.filter (fun s => !removable_dest K env s.dest)
          = st.subs.filter (fun s => !removable_dest K env s.dest)
      ∧ ∀ s ∈ st.subs, removable_dest K env s.dest = false → s ∈ st1.subs := by
  obtain ⟨st1, h, _, hfilter, _, _, tr, htr, hgood⟩ :=
    remove_all_connections_frame K env show_all fuel st hclients hports hsubs
  refine ⟨st1, h, ⟨tr, htr, fun sender dest hmem => hgood _ hmem⟩, hfilter, ?_⟩
  intro s hs hrem
  have : s ∈ st.subs.filter (fun s => !removable_dest K env s.dest) :=
    List.mem_filter.2 ⟨hs, by simp [hrem]⟩
  rw [← hfilter] at this
  exact (List.mem_filter.1 this).1

theorem C8_witness :
    ∃ st1, remove_all_connections alsa_consts env_exported false 2 st_two_subs = some st1
      ∧ (∃ tr, st1.calls = st_two_subs.calls ++ tr
          ∧ ∀ sender dest, Call.snd_seq_unsubscribe_port sender dest ∈ tr →
              removable_dest alsa_consts env_exported dest = true)
      ∧ st1.subs.filter (fun s => !removable_dest alsa_consts env_exported s.dest)
          = st_two_subs.subs.filter (fun s => !removable_dest alsa_consts env_exported s.dest)
      ∧ ∀ s ∈ st_two_subs.subs, removable_dest alsa_consts env_exported s.dest = false →
          s ∈ st1.subs :=
  C8_remove_all_keeps_unremovable alsa_consts env_exported false 2 st_two_subs
    (by decide) (by decide) (by decide)

/-! ## The subscription lister -/

theorem list_each_subs_entry_eq (st : State) (q : snd_seq_query_subscribe_t)
    (s : snd_seq_port_subscribe_t) :
    list_each_subs_entry st
        { q with addr := peer_addr q.type s, queue := s.queue, exclusive := s.exclusive,
                 time_update := s.time_update, time_real := s.time_real }
      = st.printf (subs_entry q.type s) := by
  unfold list_each_subs_entry subs_entry State.printf fmt_d
  cases hex : s.exclusive <;> cases htu : s.time_update <;>
    simp [String.append_assoc] <;> rfl

theorem list_each_subs_loop_none (msg : String) (fuel : Nat) (st : State)
    (q : snd_seq_query_subscribe_t) (count : Nat)
    (hg : (subscribers st q.root q.type).get? q.index = none) :
    list_each_subs_loop msg fuel st q count
      = some (st.log (.snd_seq_query_port_subscribers q.root q.type q.index), count) := by
  cases fuel <;> unfold list_each_subs_loop <;> rw [query_port_subscribers_eq, hg] <;> rfl

theorem list_each_subs_loop_some (msg : String) (fuel : Nat) (st : State)
    (q : snd_seq_query_subscribe_t) (count : Nat) (s : snd_seq_port_subscribe_t)
    (hg : (subscribers st q.root q.type).get? q.index = some s) :
    list_each_subs_loop msg (fuel + 1) st q count
      = list_each_subs_loop msg fuel
          (list_each_subs_entry
            (if count = 0 then
              (st.log (.snd_seq_query_port_subscribers q.root q.type q.index)).printf
                ("\t" ++ msg ++ ": ")
             else (st.log (.snd_seq_query_port_subscribers q.root q.type q.index)).printf ", ")
            { q with addr := peer_addr q.type s, queue := s.queue, exclusive := s.exclusive,
                     time_update := s.time_update, time_real := s.time_real })
          { q with addr := peer_addr q.type s, queue := s.queue, exclusive := s.exclusive,
                   time_update := s.time_update, time_real := s.time_real,
                   index := q.index + 1 }
          (count + 1) := by
  conv_lhs => unfold list_each_subs_loop
  rw [query_port_subscribers_eq, hg]
  rfl

theorem list_each_subs_loop_spec (msg : String) (root : snd_seq_addr_t)
    (type : snd_seq_query_subs_type_t) (l : List snd_seq_port_subscribe_t) :
    ∀ (fuel : Nat) (st : State) (q : snd_seq_query_subscribe_t),
      subscribers st root type = l → q.root = root → q.type = type →
      q.index ≤ l.length → l.length - q.index ≤ fuel →
      ∃ st1, list_each_subs_loop msg fuel st q q.index = some (st1, l.length)
        ∧ st1.stdout = st.stdout ++ entries_from msg type q.index (l.drop q.index)
        ∧ st1.subs = st.subs ∧ st1.stderr = st.stderr
        ∧ st1.calls = st.calls ++ (List.range' q.index (l.length + 1 - q.index)).map
            (fun i => Call.snd_seq_query_port_subscribers root type i) := by
  intro fuel
  induction fuel with
  | zero =>
    intro st q hl hroot htype hle hfuel
    have hidx : q.index = l.length := by omega
    have hg : (subscribers st q.root q.type).get? q.index = none := by
      rw [hroot, htype, hl]; exact List.get?_eq_none.2 (by omega)
    refine ⟨st.log (.snd_seq_query_port_subscribers q.root q.type q.index), ?_, ?_, rfl, rfl, ?_⟩
    · rw [list_each_subs_loop_none msg _ st q _ hg, hidx]
    · simp [State.log, hidx, entries_from]
    · have : l.length + 1 - q.index = 1 := by omega
      simp [State.log, this, hroot, htype]
  | succ fuel ih =>
    intro st q hl hroot htype hle hfuel
    by_cases hidx : q.index = l.length
    · have hg : (subscribers st q.root q.type).get? q.index = none := by
        rw [hroot, htype, hl]; exact List.get?_eq_none.2 (by omega)
      refine ⟨st.log (.snd_seq_query_port_subscribers q.root q.type q.index), ?_, ?_, rfl, rfl,
        ?_⟩
      · rw [list_each_subs_loop_none msg _ st q _ hg, hidx]
      · simp [State.log, hidx, entries_from]
      · have : l.length + 1 - q.index = 1 := by omega
        simp [State.log, this, hroot, htype]
    · have hlt : q.index < l.length := by omega
      have hg : (subscribers st q.root q.type).get? q.index = some (l.get ⟨q.index, hlt⟩) := by
        rw [hroot, htype, hl]; exact List.get?_eq_get hlt
      let st2 := list_each_subs_entry
        (if q.index = 0 then
          (st.log (.snd_seq_query_port_subscribers q.root q.type q.index)).printf
            ("\t" ++ msg ++ ": ")
         else (st.log (.snd_seq_query_port_subscribers q.root q.type q.index)).printf ", ")
        { q with addr := peer_addr q.type (l.get ⟨q.index, hlt⟩),
                 queue := (l.get ⟨q.index, hlt⟩).queue,
                 exclusive := (l.get ⟨q.index, hlt⟩).exclusive,
                 time_update := (l.get ⟨q.index, hlt⟩).time_update,
                 time_real := (l.get ⟨q.index, hlt⟩).time_real }
      have hst2 : st2 = { st with
          calls := st.calls ++ [.snd_seq_query_port_subscribers q.root q.type q.index],
          stdout := st.stdout ++ (if q.index = 0 then "\t" ++ msg ++ ": " else ", ")
            ++ subs_entry q.type (l.get ⟨q.index, hlt⟩) } := by
        show list_each_subs_entry _ _ = _
        rw [list_each_subs_entry_eq]
        by_cases h0 : q.index = 0 <;> simp [h0, State.printf, State.log]
      obtain ⟨st3, hloop, hout, hsubs, herr, htr⟩ := ih st2
        { q with addr := peer_addr q.type (l.get ⟨q.index, hlt⟩),
                 queue := (l.get ⟨q.index, hlt⟩).queue,
                 exclusive := (l.get ⟨q.index, hlt⟩).exclusive,
                 time_update := (l.get ⟨q.index, hlt⟩).time_update,
                 time_real := (l.get ⟨q.index, hlt⟩).time_real,
                 index := q.index + 1 }
        (by rw [hst2]; exact hl) hroot htype (by simp only; omega) (by simp only; omega)
      refine ⟨st3, ?_, ?_, ?_, ?_, ?_⟩
      · rw [← hloop, list_each_subs_loop_some msg fuel st q _ _ hg]
      · rw [hout, hst2]
        have hdrop : l.drop q.index = l.get ⟨q.index, hlt⟩ :: l.drop (q.index + 1) :=
          (List.drop_eq_getElem_cons hlt)
        rw [hdrop]
        simp only [entries_from, htype, String.append_assoc]
      · rw [hsubs, hst2]
      · rw [herr, hst2]
      · rw [htr, hst2]
        have : l.length + 1 - q.index = (l.length + 1 - (q.index + 1)) + 1 := by omega
        rw [this, List.range'_succ]
        simp [hroot, htype]

theorem intercalate_go_entries (msg : String) (type : snd_seq_query_subs_type_t)
    (rest : List snd_seq_port_subscribe_t) :
    ∀ (acc : String) (count : Nat), count ≠ 0 →
      String.intercalate.go acc ", " (rest.map (subs_entry type))
        = acc ++ entries_from msg type count rest := by
  induction rest with
  | nil =>
    intro acc count _
    simp [String.intercalate.go, entries_from]
  | cons s rest ih =>
    intro acc count hc
    simp only [List.map_cons, String.intercalate.go, entries_from, hc, if_false]
    rw [ih _ (count + 1) (by omega)]
    simp only [String.append_assoc]

theorem subs_line_eq (msg : String) (type : snd_seq_query_subs_type_t)
    (l : List snd_seq_port_subscribe_t) :
    subs_line msg (l.map (subs_entry type))
      = entries_from msg type 0 l ++ (if l.length > 0 then "\n" else "") := by
  cases l with
  | nil => rfl
  | cons s rest =>
    simp only [List.map_cons, subs_line, String.intercalate, entries_from, if_true,
      List.length_cons, Nat.zero_lt_succ, gt_iff_lt]
    rw [intercalate_go_entries msg type rest _ 1 (by omega)]
    simp only [String.append_assoc]

theorem list_each_subs_spec (fuel : Nat) (st : State)
    (subs : snd_seq_query_subscribe_t) (type : snd_seq_query_subs_type_t) (msg : String)
    (hfuel : (subscribers st subs.root type).length ≤ fuel) :
    ∃ st1, list_each_subs fuel st subs type msg = some st1
      ∧ st1.stdout
          = st.stdout ++ subs_line msg ((subscribers st subs.root type).map (subs_entry type))
      ∧ (subscribers st subs.root type = [] → st1.stdout = st.stdout)
      ∧ st1.calls = st.calls ++ (List.range ((subscribers st subs.root type).length + 1)).map
          (fun i => Call.snd_seq_query_port_subscribers subs.root type i)
      ∧ st1.subs = st.subs ∧ st1.stderr = st.stderr := by
  obtain ⟨st1, hloop, hout, hsubs, herr, htr⟩ :=
    list_each_subs_loop_spec msg subs.root type (subscribers st subs.root type) fuel st
      { { subs with type := type } with index := 0 } rfl rfl rfl (Nat.zero_le _)
      (by simpa using hfuel)
  have hloop' : list_each_subs_loop msg fuel st { { subs with type := type } with index := 0 } 0
      = some (st1, (subscribers st subs.root type).length) := hloop
  have hout' : st1.stdout = st.stdout
      ++ entries_from msg type 0 (subscribers st subs.root type) := by
    simpa using hout
  have hmain : (if (subscribers st subs.root type).length > 0 then st1.printf "\n"
      else st1).stdout
      = st.stdout ++ subs_line msg ((subscribers st subs.root type).map (subs_entry type)) := by
    rw [subs_line_eq]
    by_cases hpos : (subscribers st subs.root type).length > 0
    · simp only [hpos, if_true, State.printf, hout', String.append_assoc]
    · simp only [hpos, if_false, hout', String.append_assoc, String.append_empty]
  refine ⟨if (subscribers st subs.root type).length > 0 then st1.printf "\n" else st1,
    ?_, hmain, ?_, ?_, ?_, ?_⟩
  · unfold list_each_subs
    simp only [hloop']
  · intro hnil
    rw [hmain, hnil]
    simp [subs_line]
  · have : (if (subscribers st subs.root type).length > 0 then st1.printf "\n" else st1).calls
        = st1.calls := by split <;> rfl
    rw [this, htr, List.range_eq_range']
    simp
  · have : (if (subscribers st subs.root type).length > 0 then st1.printf "\n" else st1).subs
        = st1.subs := by split <;> rfl
    rw [this, hsubs]
  · have : (if (subscribers st subs.root type).length > 0 then st1.printf "\n" else st1).stderr
        = st1.stderr := by split <;> rfl
    rw [this, herr]

/-- C7. Let s_0, ..., s_(n-1) be the subscriptions the service returns for the
root and type of the query.  Given fuel for n passes, list_each_subs returns; it
has queried the indices 0, 1, ..., n in this order; it has printed nothing when
n = 0, and otherwise exactly one line: a tab, the label msg, a colon and a blank,
the entries in index order separated by a comma and a blank, and a newline, each
entry being client:port of the peer address, then [ex] iff the subscription is
exclusive, then [real:queue] or [tick:queue] iff time-update is set (real iff
time-real is set).  It changes neither the subscriptions nor standard error. -/
theorem C7_list_each_subs_prints_one_line (fuel : Nat) (st : State)
    (subs : snd_seq_query_subscribe_t) (type : snd_seq_query_subs_type_t) (msg : String)
    (hfuel : (subscribers st subs.root type).length ≤ fuel) :
    ∃ st1, list_each_subs fuel st subs type msg = some st1
      ∧ st1.stdout
          = st.stdout ++ subs_line msg ((subscribers st subs.root type).map (subs_entry type))
      ∧ (subscribers st subs.root type = [] → st1.stdout = st.stdout)
      ∧ st1.calls = st.calls ++ (List.range ((subscribers st subs.root type).length + 1)).map
          (fun i => Call.snd_seq_query_port_subscribers subs.root type i)
      ∧ st1.subs = st.subs ∧ st1.stderr = st.stderr :=
  list_each_subs_spec fuel st subs type msg hfuel

theorem C7_witness :
    ∃ st1, list_each_subs 2 st_two_subs { root := ⟨128, 0⟩ } .SND_SEQ_QUERY_SUBS_READ
        "Connecting To" = some st1
      ∧ st1.stdout = "\tConnecting To: 129:0, 129:1[ex][tick:3]\n" := by
  obtain ⟨st1, h, hout, _⟩ := C7_list_each_subs_prints_one_line 2 st_two_subs
    { root := ⟨128, 0⟩ } .SND_SEQ_QUERY_SUBS_READ "Connecting To" (by decide)
  exact ⟨st1, h, by rw [hout]; decide⟩

/-! ## The option loop -/

theorem main_switch_command (K : SeqConsts) (env : Env) (v : Locals) (c : Char)
    (optarg : String) (h : recognised_flag K c = true) :
    ∃ v1, main_switch K env v c optarg = some v1
      ∧ v1.command = (flag_action K c).getD v.command := by
  unfold main_switch
  unfold recognised_flag flag_action modifier_flag at h
  unfold flag_action
  by_cases hd : c = 'd'
  · simp [hd]
  by_cases hi : c = 'i'
  · simp [hi]
  by_cases ho : c = 'o'
  · simp [ho]
  by_cases he : c = 'e'
  · simp [he]
  by_cases hr : c = 'r'
  · simp [hr]
  by_cases ht : c = 't'
  · simp [ht]
  by_cases hl : c = 'l'
  · simp [hl]
  by_cases hx : c = 'x'
  · simp [hx]
  by_cases ha : K.HANDLE_SHOW_ALL = true ∧ c = 'a'
  · simp [hd, hi, ho, he, hr, ht, hl, hx, ha]
  · simp [hd, hi, ho, he, hr, ht, hl, hx, ha] at h

theorem main_getopt_loop_command (K : SeqConsts) (env : Env) (opts : List (Char × String)) :
    ∀ v : Locals, (∀ o ∈ opts, recognised_flag K o.1 = true) →
    ∃ v1, main_getopt_loop K env opts v = some v1
      ∧ v1.command = ((opts.filterMap fun o => flag_action K o.1).getLast?).getD v.command := by
  induction opts with
  | nil => intro v _; exact ⟨v, rfl, rfl⟩
  | cons o rest ih =>
    intro v h
    obtain ⟨c, optarg⟩ := o
    obtain ⟨v1, hv1, hc1⟩ := main_switch_command K env v c optarg (h (c, optarg) (by simp))
    obtain ⟨v2, hv2, hc2⟩ := ih v1 (fun o ho => h o (List.mem_cons_of_mem _ ho))
    refine ⟨v2, ?_, ?_⟩
    · simp [main_getopt_loop, hv1, hv2]
    · rw [hc2, hc1]
      cases hf : flag_action K c with
      | none => simp [List.filterMap_cons, hf]
      | some a => simp [List.filterMap_cons, hf, List.getLast?_cons]

theorem selected_action_filter (K : SeqConsts) (opts : List (Char × String)) :
    selected_action K (opts.filter fun o => !modifier_flag o.1) = selected_action K opts := by
  unfold selected_action
  congr 2
  induction opts with
  | nil => rfl
  | cons o rest ih =>
    by_cases hm : modifier_flag o.1 = true
    · have hf : flag_action K o.1 = none := by
        unfold modifier_flag at hm
        unfold flag_action
        simp only [Bool.or_eq_true, decide_eq_true_eq] at hm
        rcases hm with (h | h) | h <;> simp [h]
      simp [List.filter_cons, hm, List.filterMap_cons, hf, ih]
    · simp [List.filter_cons, hm, List.filterMap_cons, ih]

/-- C9. For every sequence of recognised flags the option loop of main ends, and
the command it leaves for the dispatch is the action of the last action-selecting
flag (disconnect for d; list for i, o, l and, where supported, a; remove-all for
x), connect when there is none; main goes on with exactly that command, and
dropping the modifier flags e, r and t from the sequence does not change it.
What main then does, once the sequencer is open, is that action: for list, the
port search with the listing callback; for remove-all, remove_all_connections;
for disconnect, on a pair that is linked, one snd_seq_unsubscribe_port that
removes the link; for connect, on a pair that is not linked, one
snd_seq_subscribe_port that adds the link with the modifiers of the flags; each
followed by the close and exit status 0. -/
theorem C9_action_selected_by_last_flag (K : SeqConsts) (env : Env)
    (opts : List (Char × String)) (h : ∀ o ∈ opts, recognised_flag K o.1 = true) :
    ∃ v : Locals, main_getopt_loop K env opts {} = some v
      ∧ v.command = selected_action K opts
      ∧ (∀ fuel args st, main K env fuel opts args st = main_run K env fuel v args st)
      ∧ selected_action K (opts.filter fun o => !modifier_flag o.1) = selected_action K opts
      ∧ (∀ fuel args st, 0 ≤ env.open_result → selected_action K opts = .LIST →
          main K env fuel opts args st
            = (do_search_port K env v.show_all fuel
                (snd_lib_error_set_handler (snd_seq_open env st).1) v.list_perm
                (if v.list_subs then print_port_and_subs K fuel else print_port K)).map
                fun st1 => (snd_seq_close st1, 0))
      ∧ (∀ fuel args st, 0 ≤ env.open_result → selected_action K opts = .REMOVE_ALL →
          main K env fuel opts args st
            = (remove_all_connections K env v.show_all fuel
                (snd_lib_error_set_handler (snd_seq_open env st).1)).map
                fun st1 => (snd_seq_close st1, 0))
      ∧ (∀ fuel arg0 arg1 rest st sender dest, 0 ≤ env.open_result → 0 ≤ env.client_id →
          0 ≤ env.set_client_name_result → env.parse_address arg0 = some sender →
          env.parse_address arg1 = some dest →
          selected_action K opts = .UNSUBSCRIBE →
          st.subs.any (links sender dest) = true →
          env.unsubscribe_denied sender dest = false →
          main K env fuel opts (arg0 :: arg1 :: rest) st
            = some ({ st with
                subs := st.subs.eraseP (links sender dest),
                calls := st.calls ++ [.snd_seq_open, .snd_lib_error_set_handler,
                  .snd_seq_client_id, .snd_seq_set_client_name "ALSA Connector",
                  .snd_seq_parse_address arg0, .snd_seq_parse_address arg1,
                  .snd_seq_get_port_subscription sender dest,
                  .snd_seq_unsubscribe_port sender dest, .snd_seq_close] }, 0))
      ∧ (∀ fuel arg0 arg1 rest st sender dest, 0 ≤ env.open_result → 0 ≤ env.client_id →
          0 ≤ env.set_client_name_result → env.parse_address arg0 = some sender →
          env.parse_address arg1 = some dest →
          selected_action K opts = .SUBSCRIBE →
          st.subs.any (links sender dest) = false →
          env.subscribe_denied sender dest = false →
          main K env fuel opts (arg0 :: arg1 :: rest) st
            = some ({ st with
                subs := st.subs ++ [{
                  sender := sender, dest := dest, queue := v.queue,
                  exclusive := v.exclusive, time_update := v.convert_time,
                  time_real := v.convert_real }],
                calls := st.calls ++ [.snd_seq_open, .snd_lib_error_set_handler,
                  .snd_seq_client_id, .snd_seq_set_client_name "ALSA Connector",
                  .snd_seq_parse_address arg0, .snd_seq_parse_address arg1,
                  .snd_seq_get_port_subscription sender dest,
                  .snd_seq_subscribe_port sender dest, .snd_seq_close] }, 0)) := by
  obtain ⟨v, hv, hc⟩ := main_getopt_loop_command K env opts {} h
  have hc' : v.command = selected_action K opts := hc
  refine ⟨v, hv, hc, ?_, selected_action_filter K opts, ?_, ?_, ?_, ?_⟩
  · intro fuel args st
    simp [main, hv]
  · intro fuel args st hopen hcmd
    have h1 : ¬ env.open_result < 0 := by omega
    rw [hcmd] at hc'
    cases hd : do_search_port K env v.show_all fuel
        (snd_lib_error_set_handler (snd_seq_open env st).1) v.list_perm
        (if v.list_subs then print_port_and_subs K fuel else print_port K) <;>
      simp only [snd_seq_open] at hd <;>
      simp [main, hv, main_run, hc', snd_seq_open, h1, hd]
  · intro fuel args st hopen hcmd
    have h1 : ¬ env.open_result < 0 := by omega
    rw [hcmd] at hc'
    cases hd : remove_all_connections K env v.show_all fuel
        (snd_lib_error_set_handler (snd_seq_open env st).1) <;>
      simp only [snd_seq_open] at hd <;>
      simp [main, hv, main_run, hc', snd_seq_open, h1, hd]
  · intro fuel arg0 arg1 rest st sender dest hopen hclient hname hsender hdest hcmd hany hden
    have h1 : ¬ env.open_result < 0 := by omega
    have h2 : ¬ env.client_id < 0 := by omega
    have h3 : ¬ env.set_client_name_result < 0 := by omega
    rw [hcmd] at hc'
    simp [main, hv, main_run, main_connect, hc', snd_seq_open, snd_lib_error_set_handler,
      snd_seq_client_id, snd_seq_set_client_name, snd_seq_parse_address,
      snd_seq_get_port_subscription, snd_seq_unsubscribe_port, snd_seq_close, State.log,
      h1, h2, h3, hsender, hdest, hany, hden]
  · intro fuel arg0 arg1 rest st sender dest hopen hclient hname hsender hdest hcmd hany hden
    have h1 : ¬ env.open_result < 0 := by omega
    have h2 : ¬ env.client_id < 0 := by omega
    have h3 : ¬ env.set_client_name_result < 0 := by omega
    rw [hcmd] at hc'
    simp [main, hv, main_run, main_connect, hc', snd_seq_open, snd_lib_error_set_handler,
      snd_seq_client_id, snd_seq_set_client_name, snd_seq_parse_address,
      snd_seq_get_port_subscription, snd_seq_subscribe_port, snd_seq_close, State.log,
      h1, h2, h3, hsender, hdest, hany, hden]

theorem C9_witness :
    (∃ v : Locals,
      main_getopt_loop alsa_consts env_two_clients
          [('i', ""), ('e', ""), ('d', ""), ('r', "2")] {} = some v
      ∧ v.command = .UNSUBSCRIBE)
    ∧ main alsa_consts env_two_clients 0 [('i', ""), ('e', ""), ('d', ""), ('r', "2")]
        ["128:0", "129:0"] st_two_subs
      = some ({ st_two_subs with
          subs := st_two_subs.subs.eraseP (links ⟨128, 0⟩ ⟨129, 0⟩),
          calls := st_two_subs.calls ++ [.snd_seq_open, .snd_lib_error_set_handler,
            .snd_seq_client_id, .snd_seq_set_client_name "ALSA Connector",
            .snd_seq_parse_address "128:0", .snd_seq_parse_address "129:0",
            .snd_seq_get_port_subscription ⟨128, 0⟩ ⟨129, 0⟩,
            .snd_seq_unsubscribe_port ⟨128, 0⟩ ⟨129, 0⟩, .snd_seq_close] }, 0) := by
  obtain ⟨v, hv, hc, _, _, _, _, hdis, _⟩ := C9_action_selected_by_last_flag alsa_consts
    env_two_clients [('i', ""), ('e', ""), ('d', ""), ('r', "2")] (by decide)
  exact ⟨⟨v, hv, by rw [hc]; decide⟩,
    hdis 0 "128:0" "129:0" [] st_two_subs ⟨128, 0⟩ ⟨129, 0⟩ (by decide) (by decide)
      (by decide) (by decide) (by decide) (by decide) (by decide) rfl⟩

theorem main_switch_none (K : SeqConsts) (env : Env) (v : Locals) (c : Char)
    (optarg : String) (h : recognised_flag K c = false) :
    main_switch K env v c optarg = none := by
  unfold recognised_flag flag_action modifier_flag at h
  unfold main_switch
  by_cases hd : c = 'd'
  · simp [hd] at h
  by_cases hi : c = 'i'
  · simp [hi] at h
  by_cases ho : c = 'o'
  · simp [ho] at h
  by_cases he : c = 'e'
  · simp [he] at h
  by_cases hr : c = 'r'
  · simp [hr] at h
  by_cases ht : c = 't'
  · simp [ht] at h
  by_cases hl : c = 'l'
  · simp [hl] at h
  by_cases hx : c = 'x'
  · simp [hx] at h
  by_cases ha : K.HANDLE_SHOW_ALL = true ∧ c = 'a'
  · simp [hd, hi, ho, he, hr, ht, hl, hx, ha] at h
  · simp [hd, hi, ho, he, hr, ht, hl, hx, ha]

theorem main_getopt_loop_none (K : SeqConsts) (env : Env) (opts : List (Char × String)) :
    ∀ v : Locals, (∃ o ∈ opts, recognised_flag K o.1 = false) →
      main_getopt_loop K env opts v = none := by
  induction opts with
  | nil => rintro v ⟨o, ho, _⟩; cases ho
  | cons o rest ih =>
    intro v h
    obtain ⟨c, optarg⟩ := o
    by_cases hc : recognised_flag K c = true
    · obtain ⟨v1, hv1, _⟩ := main_switch_command K env v c optarg hc
      have hrest : ∃ o ∈ rest, recognised_flag K o.1 = false := by
        obtain ⟨o, ho, hbad⟩ := h
        rcases List.mem_cons.1 ho with rfl | ho
        · rw [hc] at hbad; cases hbad
        · exact ⟨o, ho, hbad⟩
      simp [main_getopt_loop, hv1, ih v1 hrest]
    · simp [main_getopt_loop, main_switch_none K env v c optarg (by simpa using hc)]

theorem main_getopt_loop_connect (K : SeqConsts) (env : Env) (opts : List (Char × String))
    (h : ∀ o ∈ opts, o.1 = 'e' ∨ o.1 = 'r' ∨ o.1 = 't') :
    ∃ v : Locals, main_getopt_loop K env opts {} = some v ∧ v.command = .SUBSCRIBE := by
  have hnone : ∀ o ∈ opts, flag_action K o.1 = none := by
    intro o ho
    unfold flag_action
    rcases h o ho with h | h | h <;> simp [h]
  obtain ⟨v, hv, hc⟩ := main_getopt_loop_command K env opts {} (by
    intro o ho
    unfold recognised_flag modifier_flag
    rcases h o ho with h | h | h <;> simp [h])
  refine ⟨v, hv, ?_⟩
  rw [hc]
  have : (opts.filterMap fun o => flag_action K o.1) = [] :=
    List.filterMap_eq_nil_iff.2 hnone
  rw [this]
  rfl

/-! ## Connect and disconnect -/

/-- C2. A connect invocation (only the flags e, r and t, and two positional
addresses that parse) on a service that opens, gives a client id, accepts the
client name and already holds the subscription sender -> dest, ends with exit
status 1 after printing "Connection is already subscribed"; it makes the calls
open, error handler, client id, client name, two address parses, the
subscription query and close, so snd_seq_subscribe_port is never called, and
the subscriptions are unchanged. -/
theorem C2_connect_existing_fails (K : SeqConsts) (env : Env) (fuel : Nat)
    (opts : List (Char × String)) (arg0 arg1 : String) (rest : List String) (st : State)
    (sender dest : snd_seq_addr_t)
    (hopts : ∀ o ∈ opts, o.1 = 'e' ∨ o.1 = 'r' ∨ o.1 = 't')
    (hopen : 0 ≤ env.open_result) (hclient : 0 ≤ env.client_id)
    (hname : 0 ≤ env.set_client_name_result)
    (hsender : env.parse_address arg0 = some sender)
    (hdest : env.parse_address arg1 = some dest)
    (hexists : st.subs.any (links sender dest) = true) :
    main K env fuel opts (arg0 :: arg1 :: rest) st
      = some ({ st with
          calls := st.calls ++ [.snd_seq_open, .snd_lib_error_set_handler, .snd_seq_client_id,
            .snd_seq_set_client_name "ALSA Connector", .snd_seq_parse_address arg0,
            .snd_seq_parse_address arg1, .snd_seq_get_port_subscription sender dest,
            .snd_seq_close],
          stderr := st.stderr ++ "Connection is already subscribed\n" }, 1) := by
  obtain ⟨v, hv, hc⟩ := main_getopt_loop_connect K env opts hopts
  have h1 : ¬ env.open_result < 0 := by omega
  have h2 : ¬ env.client_id < 0 := by omega
  have h3 : ¬ env.set_client_name_result < 0 := by omega
  simp [main, hv, main_run, main_connect, hc, snd_seq_open, snd_lib_error_set_handler, snd_seq_client_id,
    snd_seq_set_client_name, snd_seq_parse_address, snd_seq_get_port_subscription,
    snd_seq_close, State.log, State.eprintf, h1, h2, h3, hsender, hdest, hexists]

theorem C2_witness :
    main alsa_consts env_two_clients 0 [('e', "")] ["128:0", "129:0"] st_two_subs
      = some ({ st_two_subs with
          calls := st_two_subs.calls ++ [.snd_seq_open, .snd_lib_error_set_handler,
            .snd_seq_client_id, .snd_seq_set_client_name "ALSA Connector",
            .snd_seq_parse_address "128:0", .snd_seq_parse_address "129:0",
            .snd_seq_get_port_subscription ⟨128, 0⟩ ⟨129, 0⟩, .snd_seq_close],
          stderr := st_two_subs.stderr ++ "Connection is already subscribed\n" }, 1) :=
  C2_connect_existing_fails alsa_consts env_two_clients 0 [('e', "")] "128:0" "129:0" []
    st_two_subs ⟨128, 0⟩ ⟨129, 0⟩ (by decide) (by decide) (by decide) (by decide)
    (by decide) (by decide) (by decide)

/-- C3. A disconnect invocation (recognised flags of which the last
action-selecting one is d, and two positional addresses that parse) on a service
that opens, gives a client id, accepts the client name and holds no subscription
sender -> dest, ends with exit status 1 after printing "No subscription is
found"; it makes the calls open, error handler, client id, client name, two
address parses, the subscription query and close, so snd_seq_unsubscribe_port is
never called, and the subscriptions are unchanged. -/
theorem C3_disconnect_missing_fails (K : SeqConsts) (env : Env) (fuel : Nat)
    (opts : List (Char × String)) (arg0 arg1 : String) (rest : List String) (st : State)
    (sender dest : snd_seq_addr_t)
    (hopts : ∀ o ∈ opts, recognised_flag K o.1 = true)
    (hcmd : selected_action K opts = .UNSUBSCRIBE)
    (hopen : 0 ≤ env.open_result) (hclient : 0 ≤ env.client_id)
    (hname : 0 ≤ env.set_client_name_result)
    (hsender : env.parse_address arg0 = some sender)
    (hdest : env.parse_address arg1 = some dest)
    (hmissing : st.subs.any (links sender dest) = false) :
    main K env fuel opts (arg0 :: arg1 :: rest) st
      = some ({ st with
          calls := st.calls ++ [.snd_seq_open, .snd_lib_error_set_handler, .snd_seq_client_id,
            .snd_seq_set_client_name "ALSA Connector", .snd_seq_parse_address arg0,
            .snd_seq_parse_address arg1, .snd_seq_get_port_subscription sender dest,
            .snd_seq_close],
          stderr := st.stderr ++ "No subscription is found\n" }, 1) := by
  obtain ⟨v, hv, hc⟩ := main_getopt_loop_command K env opts {} hopts
  have hc' : v.command = .UNSUBSCRIBE := by rw [hc]; exact hcmd
  have h1 : ¬ env.open_result < 0 := by omega
  have h2 : ¬ env.client_id < 0 := by omega
  have h3 : ¬ env.set_client_name_result < 0 := by omega
  simp [main, hv, main_run, main_connect, hc', snd_seq_open, snd_lib_error_set_handler, snd_seq_client_id,
    snd_seq_set_client_name, snd_seq_parse_address, snd_seq_get_port_subscription,
    snd_seq_close, State.log, State.eprintf, h1, h2, h3, hsender, hdest, hmissing]

theorem C3_witness :
    main alsa_consts env_two_clients 0 [('d', "")] ["128:0", "129:0"] {}
      = some ({
          calls := [.snd_seq_open, .snd_lib_error_set_handler,
            .snd_seq_client_id, .snd_seq_set_client_name "ALSA Connector",
            .snd_seq_parse_address "128:0", .snd_seq_parse_address "129:0",
            .snd_seq_get_port_subscription ⟨128, 0⟩ ⟨129, 0⟩, .snd_seq_close],
          stderr := "No subscription is found\n" }, 1) :=
  C3_disconnect_missing_fails alsa_consts env_two_clients 0 [('d', "")] "128:0" "129:0" []
    {} ⟨128, 0⟩ ⟨129, 0⟩ (by decide) (by decide) (by decide) (by decide) (by decide)
    (by decide) (by decide) (by decide)

/-! ## Usage errors -/

/-- C5 (amended). An invocation with an unrecognised flag prints the usage text
and exits with status 1 without any call on the sequencer.  A connect or
disconnect invocation with fewer than two positional arguments first opens the
sequencer: when the open succeeds, main installs the error handler, closes the
sequencer, prints the usage text and exits with status 1; when the open fails,
main prints "can't open sequencer" and exits with status 1. -/
theorem C5_usage_errors (K : SeqConsts) (env : Env) (fuel : Nat)
    (opts : List (Char × String)) (args : List String) (st : State) :
    ((∃ o ∈ opts, recognised_flag K o.1 = false) →
      main K env fuel opts args st
        = some ({ st with stdout := st.stdout ++ usage_text K }, 1))
    ∧ ((∀ o ∈ opts, recognised_flag K o.1 = true) →
        (selected_action K opts = .SUBSCRIBE ∨ selected_action K opts = .UNSUBSCRIBE) →
        args.length < 2 →
        (0 ≤ env.open_result →
          main K env fuel opts args st
            = some ({ st with
                calls := st.calls ++ [.snd_seq_open, .snd_lib_error_set_handler,
                  .snd_seq_close],
                stdout := st.stdout ++ usage_text K }, 1))
        ∧ (env.open_result < 0 →
          main K env fuel opts args st
            = some ({ st with
                calls := st.calls ++ [.snd_seq_open],
                stderr := st.stderr ++ "can't open sequencer\n" }, 1))) := by
  constructor
  · intro h
    simp [main, main_getopt_loop_none K env opts {} h, usage, State.printf]
  · intro hopts hcmd hargs
    obtain ⟨v, hv, hc⟩ := main_getopt_loop_command K env opts {} hopts
    have hc' : v.command = selected_action K opts := hc
    constructor
    · intro hopen
      have h1 : ¬ env.open_result < 0 := by omega
      match args, hargs with
      | [], _ =>
        rcases hcmd with hcmd | hcmd <;>
          simp [main, hv, main_run, main_connect, hc', hcmd, snd_seq_open, snd_lib_error_set_handler,
            snd_seq_close, State.log, usage, State.printf, h1]
      | [_], _ =>
        rcases hcmd with hcmd | hcmd <;>
          simp [main, hv, main_run, main_connect, hc', hcmd, snd_seq_open, snd_lib_error_set_handler,
            snd_seq_close, State.log, usage, State.printf, h1]
      | _ :: _ :: _, h => exact absurd h (by simp)
    · intro hopen
      simp [main, hv, main_run, snd_seq_open, State.log, State.eprintf, hopen]

theorem C5_witness :
    main alsa_consts {} 0 [('e', ""), ('?', "")] ["128:0", "129:0"] {}
        = some ({ stdout := usage_text alsa_consts }, 1)
    ∧ main alsa_consts {} 0 [('d', "")] ["128:0"] {}
        = some ({
            calls := [.snd_seq_open, .snd_lib_error_set_handler, .snd_seq_close],
            stdout := usage_text alsa_consts }, 1) := by
  constructor
  · have h := (C5_usage_errors alsa_consts {} 0 [('e', ""), ('?', "")] ["128:0", "129:0"]
      {}).1 (by decide)
    simpa using h
  · have h := ((C5_usage_errors alsa_consts {} 0 [('d', "")] ["128:0"] {}).2 (by decide)
      (by decide) (by decide)).1 (by decide)
    simpa using h

/-- C5 as stated fails: a connect invocation without positional arguments is a
usage error and exits with status 1, yet main has called snd_seq_open. -/
theorem C5_counterexample :
    ∃ st1, main alsa_consts {} 0 [] [] {} = some (st1, 1)
      ∧ st1.stdout = usage_text alsa_consts
      ∧ Call.snd_seq_open ∈ st1.calls :=
  ⟨_, rfl, rfl, by decide⟩

/-! ## The handle is released on every path -/

theorem ite_state_frame (c : Prop) [Decidable c] (a b st : State)
    (ha : same_service a st) (hb : same_service b st) :
    same_service (if c then a else b) st := by
  split <;> assumption

theorem printf_frame (a st : State) (s : String) (ha : same_service a st) :
    same_service (a.printf s) st := ha

theorem print_port_client_frame (K : SeqConsts) (st : State) (cinfo : snd_seq_client_info_t)
    (pinfo : snd_seq_port_info_t) :
    same_service (print_port_client K st cinfo pinfo) st := by
  unfold print_port_client
  dsimp only
  repeat first
    | exact ⟨rfl, rfl⟩
    | apply ite_state_frame
    | apply printf_frame

theorem print_port_frame (K : SeqConsts) (st : State) (cinfo : snd_seq_client_info_t)
    (pinfo : snd_seq_port_info_t) (count : Nat) :
    ∃ st1, print_port K st cinfo pinfo count = some st1
      ∧ st1.subs = st.subs ∧ st1.calls = st.calls := by
  have h := print_port_client_frame K st cinfo pinfo
  unfold print_port
  by_cases hc : count = 0
  · simp only [hc, if_true]
    exact ⟨_, rfl, h.1, h.2⟩
  · simp only [hc, if_false]
    exact ⟨_, rfl, rfl, rfl⟩

theorem list_subscribers_frame (K : SeqConsts) (env : Env) (fuel : Nat) (st : State)
    (addr : snd_seq_addr_t) (hfuel : st.subs.length ≤ fuel) :
    ∃ st1, list_subscribers fuel st addr = some st1 ∧ st1.subs = st.subs
      ∧ ∃ tr, st1.calls = st.calls ++ tr ∧ ∀ ev ∈ tr, sweep_call K env ev = true := by
  have hlen : ∀ (st0 : State) type, st0.subs = st.subs →
      (subscribers st0 addr type).length ≤ fuel := by
    intro st0 type h0
    unfold subscribers
    cases type <;> simp only [h0] <;> exact le_trans (List.length_filter_le _ _) hfuel
  obtain ⟨st1, h1, _, _, hc1, hs1, _⟩ := list_each_subs_spec fuel st { root := addr }
    .SND_SEQ_QUERY_SUBS_READ "Connecting To" (hlen st _ rfl)
  obtain ⟨st2, h2, _, _, hc2, hs2, _⟩ := list_each_subs_spec fuel st1 { root := addr }
    .SND_SEQ_QUERY_SUBS_WRITE "Connected From" (hlen st1 _ hs1)
  refine ⟨st2, ?_, by rw [hs2, hs1], _, by rw [hc2, hc1, List.append_assoc], ?_⟩
  · unfold list_subscribers
    simp only [h1, h2]
  · intro ev hev
    rcases List.mem_append.1 hev with hev | hev
    · obtain ⟨i, _, rfl⟩ := List.mem_map.1 hev
      rfl
    · obtain ⟨i, _, rfl⟩ := List.mem_map.1 hev
      rfl

theorem list_search_frame (K : SeqConsts) (env : Env) (show_all : Bool) (fuel : Nat)
    (st : State) (perm : Nat) (list_subs : Bool)
    (hclients : env.clients.length ≤ fuel)
    (hports : ∀ c ∈ env.clients, c.ports.length ≤ fuel)
    (hsubs : st.subs.length ≤ fuel) :
    ∃ st1, do_search_port K env show_all fuel st perm
        (if list_subs then print_port_and_subs K fuel else print_port K) = some st1
      ∧ st1.subs = st.subs
      ∧ ∃ tr, st1.calls = st.calls ++ tr ∧ ∀ ev ∈ tr, sweep_call K env ev = true := by
  have hlog : ∀ (st1 : State) (ev : Call), sweep_call K env ev = true →
      (st1.subs = st.subs
        ∧ ∃ tr, st1.calls = st.calls ++ tr ∧ ∀ ev ∈ tr, sweep_call K env ev = true) →
      ((st1.log ev).subs = st.subs
        ∧ ∃ tr, (st1.log ev).calls = st.calls ++ tr
            ∧ ∀ ev ∈ tr, sweep_call K env ev = true) := by
    rintro st1 ev hev ⟨h1, tr, h2, h3⟩
    refine ⟨h1, tr ++ [ev], by simp [State.log, h2], ?_⟩
    intro e he
    rcases List.mem_append.1 he with he | he
    · exact h3 e he
    · simp only [List.mem_singleton] at he
      rw [he]; exact hev
  obtain ⟨st1, h, hinv, _, _⟩ := do_search_port_spec K env show_all perm
    (if list_subs then print_port_and_subs K fuel else print_port K) fuel
    (fun st1 => st1.subs = st.subs
      ∧ ∃ tr, st1.calls = st.calls ++ tr ∧ ∀ ev ∈ tr, sweep_call K env ev = true)
    (fun _ _ => True)
    (fun st1 c h => hlog st1 (.snd_seq_query_next_client c) rfl h)
    (fun st1 c p h => hlog st1 (.snd_seq_query_next_port c p) rfl h)
    (fun _ _ _ h => h)
    (by
      rintro st0 cinfo pinfo count ⟨hs0, tr0, hc0, hg0⟩ _
      obtain ⟨st1, hp1, hs1, hc1⟩ := print_port_frame K st0 cinfo pinfo count
      cases list_subs with
      | false =>
        refine ⟨st1, by simpa using hp1, ⟨by rw [hs1, hs0], tr0, by rw [hc1, hc0], hg0⟩,
          trivial, fun _ _ => trivial⟩
      | true =>
        obtain ⟨st2, hl2, hs2, tr2, hc2, hg2⟩ := list_subscribers_frame K env fuel st1
          (snd_seq_port_info_get_addr pinfo) (by rw [hs1, hs0]; exact hsubs)
        refine ⟨st2, ?_, ⟨by rw [hs2, hs1, hs0], tr0 ++ tr2,
          by rw [hc2, hc1, hc0, List.append_assoc], ?_⟩, trivial, fun _ _ => trivial⟩
        · simp [print_port_and_subs, hp1, hl2]
        · intro e he
          rcases List.mem_append.1 he with he | he
          · exact hg0 e he
          · exact hg2 e he)
    hclients hports st ⟨rfl, [], by simp, by simp⟩
  exact ⟨st1, h, hinv⟩

theorem closes_once_of_sweep (K : SeqConsts) (env : Env) (tr : List Call)
    (h : ∀ ev ∈ tr, sweep_call K env ev = true) :
    closes_once ([.snd_seq_open, .snd_lib_error_set_handler] ++ tr ++ [.snd_seq_close]) := by
  have hclose : Call.snd_seq_close ∉ tr := fun hmem => by
    have := h _ hmem
    simp [sweep_call] at this
  have hopen : Call.snd_seq_open ∉ tr := fun hmem => by
    have := h _ hmem
    simp [sweep_call] at this
  refine ⟨rfl, List.getLast?_concat _, ?_, ?_⟩
  · simp [List.count_eq_zero_of_not_mem hclose]
  · simp [List.count_eq_zero_of_not_mem hopen]

theorem calls_tail_ok (st X Y : State) (mid : List Call)
    (hX : X.calls = st.calls ++ mid) (hY : Y.calls = (snd_seq_close X).calls)
    (hmid : ∀ ev ∈ mid, ev ≠ Call.snd_seq_close ∧ ev ≠ Call.snd_seq_open) :
    ∃ new, Y.calls = st.calls ++ new
      ∧ new.getLast? = some .snd_seq_close
      ∧ new.count .snd_seq_close = 1 ∧ new.count .snd_seq_open = 0 := by
  refine ⟨mid ++ [.snd_seq_close], ?_, List.getLast?_concat _, ?_, ?_⟩
  · rw [hY]
    simp [snd_seq_close, State.log, hX]
  · have : Call.snd_seq_close ∉ mid := fun h => (hmid _ h).1 rfl
    simp [List.count_eq_zero_of_not_mem this]
  · have : Call.snd_seq_open ∉ mid := fun h => (hmid _ h).2 rfl
    simp [List.count_eq_zero_of_not_mem this]

theorem main_connect_closes (K : SeqConsts) (env : Env) (v : Locals) (args : List String)
    (st : State) :
    ∃ new, (main_connect K env v args st).1.calls = st.calls ++ new
      ∧ new.getLast? = some .snd_seq_close
      ∧ new.count .snd_seq_close = 1 ∧ new.count .snd_seq_open = 0 := by
  rcases args with _ | ⟨arg0, _ | ⟨arg1, rest⟩⟩
  · exact ⟨[.snd_seq_close], rfl, rfl, rfl, rfl⟩
  · exact ⟨[.snd_seq_close], rfl, rfl, rfl, rfl⟩
  · unfold main_connect
    simp only [snd_seq_client_id, snd_seq_set_client_name, snd_seq_parse_address]
    by_cases hcid : env.client_id < 0
    · simp only [hcid, if_true]
      exact calls_tail_ok st _ _ [.snd_seq_client_id] rfl rfl (by simp)
    simp only [hcid, if_false]
    by_cases hname : env.set_client_name_result < 0
    · simp only [hname, if_true]
      exact calls_tail_ok st _ _
        [.snd_seq_client_id, .snd_seq_set_client_name "ALSA Connector"]
        (by simp [State.log]) rfl (by simp)
    simp only [hname, if_false]
    cases hp0 : env.parse_address arg0 with
    | none =>
      exact calls_tail_ok st _ _
        [.snd_seq_client_id, .snd_seq_set_client_name "ALSA Connector",
          .snd_seq_parse_address arg0]
        (by simp [State.log]) rfl (by simp)
    | some sender =>
      cases hp1 : env.parse_address arg1 with
      | none =>
        exact calls_tail_ok st _ _
          [.snd_seq_client_id, .snd_seq_set_client_name "ALSA Connector",
            .snd_seq_parse_address arg0, .snd_seq_parse_address arg1]
          (by simp [State.log]) rfl (by simp)
      | some dest =>
        have e1 : ¬ ((0 : Int) < 0) := by decide
        have e2 : (-2 : Int) < 0 := by decide
        have e3 : (-1 : Int) < 0 := by decide
        have e4 : ¬ ((-2 : Int) = 0) := by decide
        simp only [snd_seq_get_port_subscription, snd_seq_subscribe_port,
          snd_seq_unsubscribe_port, State.log]
        by_cases hcmd : v.command = .UNSUBSCRIBE
        · by_cases hany : st.subs.any (links sender dest) = true
          · by_cases hden : env.unsubscribe_denied sender dest = true
            · simp only [hcmd, hany, hden, if_true, if_false, e1, e3]
              exact calls_tail_ok st _ _
                [.snd_seq_client_id, .snd_seq_set_client_name "ALSA Connector",
                  .snd_seq_parse_address arg0, .snd_seq_parse_address arg1,
                  .snd_seq_get_port_subscription sender dest,
                  .snd_seq_unsubscribe_port sender dest]
                (by simp) rfl (by simp)
            · simp only [hcmd, hany, hden, if_true, if_false, e1]
              exact calls_tail_ok st _ _
                [.snd_seq_client_id, .snd_seq_set_client_name "ALSA Connector",
                  .snd_seq_parse_address arg0, .snd_seq_parse_address arg1,
                  .snd_seq_get_port_subscription sender dest,
                  .snd_seq_unsubscribe_port sender dest]
                (by simp) rfl (by simp)
          · simp only [hcmd, hany, if_true, if_false, e2]
            exact calls_tail_ok st _ _
              [.snd_seq_client_id, .snd_seq_set_client_name "ALSA Connector",
                .snd_seq_parse_address arg0, .snd_seq_parse_address arg1,
                .snd_seq_get_port_subscription sender dest]
              (by simp) rfl (by simp)
        · by_cases hany : st.subs.any (links sender dest) = true
          · simp only [hcmd, hany, if_true, if_false]
            exact calls_tail_ok st _ _
              [.snd_seq_client_id, .snd_seq_set_client_name "ALSA Connector",
                .snd_seq_parse_address arg0, .snd_seq_parse_address arg1,
                .snd_seq_get_port_subscription sender dest]
              (by simp) rfl (by simp)
          · by_cases hden : env.subscribe_denied sender dest = true
            · simp only [hcmd, hany, hden, if_true, if_false, e3, e4]
              exact calls_tail_ok st _ _
                [.snd_seq_client_id, .snd_seq_set_client_name "ALSA Connector",
                  .snd_seq_parse_address arg0, .snd_seq_parse_address arg1,
                  .snd_seq_get_port_subscription sender dest,
                  .snd_seq_subscribe_port sender dest]
                (by simp) rfl (by simp)
            · simp only [hcmd, hany, hden, if_true, if_false, e1, e4]
              exact calls_tail_ok st _ _
                [.snd_seq_client_id, .snd_seq_set_client_name "ALSA Connector",
                  .snd_seq_parse_address arg0, .snd_seq_parse_address arg1,
                  .snd_seq_get_port_subscription sender dest,
                  .snd_seq_subscribe_port sender dest]
                (by simp) rfl (by simp)

theorem closes_once_of_tail (new : List Call)
    (hlast : new.getLast? = some .snd_seq_close)
    (hclose : new.count .snd_seq_close = 1) (hopen : new.count .snd_seq_open = 0) :
    closes_once ([.snd_seq_open, .snd_lib_error_set_handler] ++ new) := by
  refine ⟨rfl, ?_, ?_, ?_⟩
  · rw [List.getLast?_append, hlast]; rfl
  · rw [List.count_append, hclose]; rfl
  · rw [List.count_append, hopen]; rfl

theorem main_run_closes (K : SeqConsts) (env : Env) (fuel : Nat) (v : Locals)
    (args : List String) (st : State)
    (hopen : 0 ≤ env.open_result)
    (hclients : env.clients.length ≤ fuel)
    (hports : ∀ c ∈ env.clients, c.ports.length ≤ fuel)
    (hsubs : st.subs.length ≤ fuel) :
    ∃ st1 code new, main_run K env fuel v args st = some (st1, code)
      ∧ st1.calls = st.calls ++ new ∧ closes_once new := by
  have h1 : ¬ env.open_result < 0 := by omega
  unfold main_run
  simp only [snd_seq_open, h1, if_false]
  cases hcmd : v.command with
  | LIST =>
    obtain ⟨st1, h, _, tr, hc, hg⟩ := list_search_frame K env v.show_all fuel
      (snd_lib_error_set_handler (st.log .snd_seq_open)) v.list_perm v.list_subs
      hclients hports hsubs
    refine ⟨snd_seq_close st1, 0,
      [.snd_seq_open, .snd_lib_error_set_handler] ++ tr ++ [.snd_seq_close], ?_, ?_,
      closes_once_of_sweep K env tr hg⟩
    · simp only [h]
    · simp [snd_seq_close, State.log, hc, snd_lib_error_set_handler]
  | REMOVE_ALL =>
    obtain ⟨st1, h, _, _, _, _, tr, hc, hg⟩ := remove_all_connections_frame K env v.show_all
      fuel (snd_lib_error_set_handler (st.log .snd_seq_open)) hclients hports hsubs
    refine ⟨snd_seq_close st1, 0,
      [.snd_seq_open, .snd_lib_error_set_handler] ++ tr ++ [.snd_seq_close], ?_, ?_,
      closes_once_of_sweep K env tr hg⟩
    · simp only [h]
    · simp [snd_seq_close, State.log, hc, snd_lib_error_set_handler]
  | SUBSCRIBE =>
    obtain ⟨new, hc, hlast, hcl, hop⟩ := main_connect_closes K env v args
      (snd_lib_error_set_handler (st.log .snd_seq_open))
    refine ⟨(main_connect K env v args (snd_lib_error_set_handler (st.log .snd_seq_open))).1,
      (main_connect K env v args (snd_lib_error_set_handler (st.log .snd_seq_open))).2,
      [.snd_seq_open, .snd_lib_error_set_handler] ++ new, rfl, ?_,
      closes_once_of_tail new hlast hcl hop⟩
    rw [hc]
    simp [State.log, snd_lib_error_set_handler]
  | UNSUBSCRIBE =>
    obtain ⟨new, hc, hlast, hcl, hop⟩ := main_connect_closes K env v args
      (snd_lib_error_set_handler (st.log .snd_seq_open))
    refine ⟨(main_connect K env v args (snd_lib_error_set_handler (st.log .snd_seq_open))).1,
      (main_connect K env v args (snd_lib_error_set_handler (st.log .snd_seq_open))).2,
      [.snd_seq_open, .snd_lib_error_set_handler] ++ new, rfl, ?_,
      closes_once_of_tail new hlast hcl hop⟩
    rw [hc]
    simp [State.log, snd_lib_error_set_handler]

/-- C6. On every run of main in which snd_seq_open is called and succeeds (all
flags recognised, whatever the command, the positional arguments and the answers
of the service), main, given fuel that covers the registry and the
subscriptions, returns, and the calls it has made begin with snd_seq_open, end
with snd_seq_close, and contain each of the two exactly once: the handle is
closed once, and no call follows the close. -/
theorem C6_handle_closed_once (K : SeqConsts) (env : Env) (fuel : Nat)
    (opts : List (Char × String)) (args : List String) (st : State)
    (hopts : ∀ o ∈ opts, recognised_flag K o.1 = true)
    (hopen : 0 ≤ env.open_result)
    (hclients : env.clients.length ≤ fuel)
    (hports : ∀ c ∈ env.clients, c.ports.length ≤ fuel)
    (hsubs : st.subs.length ≤ fuel) :
    ∃ st1 code new, main K env fuel opts args st = some (st1, code)
      ∧ st1.calls = st.calls ++ new ∧ closes_once new := by
  obtain ⟨v, hv, _⟩ := main_getopt_loop_command K env opts {} hopts
  obtain ⟨st1, code, new, h, hc, hclose⟩ :=
    main_run_closes K env fuel v args st hopen hclients hports hsubs
  refine ⟨st1, code, new, ?_, hc, hclose⟩
  simp only [main, hv, h]

theorem C6_witness :
    ∃ st1 code new, main alsa_consts env_exported 2 [('l', "")] [] st_two_subs
        = some (st1, code)
      ∧ st1.calls = st_two_subs.calls ++ new ∧ closes_once new :=
  C6_handle_closed_once alsa_consts env_exported 2 [('l', "")] [] st_two_subs
    (by decide) (by decide) (by decide) (by decide) (by decide)

/-! ## The capability filter -/

theorem check_direction_ne_zero (K : SeqConsts) (pinfo : snd_seq_port_info_t) (bit : Nat)
    (h : check_direction K pinfo bit ≠ 0) (hk : K.HAVE_PORT_DIR = true) :
    pinfo.direction = 0 ∨ pinfo.direction &&& bit ≠ 0 := by
  unfold check_direction at h
  by_contra hcon
  exact h (by simp [hk, hcon])

theorem check_permission_input (K : SeqConsts) (pinfo : snd_seq_port_info_t)
    (h : check_permission K pinfo LIST_INPUT ≠ 0) : input_port K pinfo := by
  by_contra hcon
  apply h
  have hno : ¬ (perm_ok pinfo.capability
      (K.SND_SEQ_PORT_CAP_READ ||| K.SND_SEQ_PORT_CAP_SUBS_READ) = true
      ∧ check_direction K pinfo K.SND_SEQ_PORT_DIR_INPUT ≠ 0) := by
    rintro ⟨hp, hd⟩
    have hp' := (and_or_eq_iff _ _ _).1 (by simpa [perm_ok] using hp)
    exact hcon ⟨hp'.1, hp'.2, check_direction_ne_zero K pinfo _ hd⟩
  have h12 : LIST_INPUT &&& LIST_OUTPUT = 0 := by decide
  have h11 : LIST_INPUT &&& LIST_INPUT ≠ 0 := by decide
  have h1 : LIST_INPUT ≠ 0 := by decide
  unfold check_permission
  simp only [h12, h11, h1, hno]
  simp

theorem check_permission_output (K : SeqConsts) (pinfo : snd_seq_port_info_t)
    (h : check_permission K pinfo LIST_OUTPUT ≠ 0) : output_port K pinfo := by
  by_contra hcon
  apply h
  have hno : ¬ (perm_ok pinfo.capability
      (K.SND_SEQ_PORT_CAP_WRITE ||| K.SND_SEQ_PORT_CAP_SUBS_WRITE) = true
      ∧ check_direction K pinfo K.SND_SEQ_PORT_DIR_OUTPUT ≠ 0) := by
    rintro ⟨hp, hd⟩
    have hp' := (and_or_eq_iff _ _ _).1 (by simpa [perm_ok] using hp)
    exact hcon ⟨hp'.1, hp'.2, check_direction_ne_zero K pinfo _ hd⟩
  have h21 : LIST_OUTPUT &&& LIST_INPUT = 0 := by decide
  have h22 : LIST_OUTPUT &&& LIST_OUTPUT ≠ 0 := by decide
  have h2 : LIST_OUTPUT ≠ 0 := by decide
  unfold check_permission
  simp only [h21, h22, h2, hno]
  simp

theorem do_search_port_ports_run (K : SeqConsts) (env : Env) (show_all : Bool) (perm : Nat)
    (do_action : action_func_t) (cinfo : snd_seq_client_info_t)
    (P : snd_seq_port_info_t → Prop) (hP : ∀ p, check_permission K p perm ≠ 0 → P p)
    (st0 : State) :
    ∀ (fuel : Nat) (st : State) (pinfo : snd_seq_port_info_t) (count : Nat)
      (r : State × snd_seq_port_info_t),
      SearchRun P do_action st0 st →
      do_search_port_ports K env show_all perm do_action cinfo fuel st pinfo count = some r →
      SearchRun P do_action st0 r.1 := by
  intro fuel
  induction fuel with
  | zero =>
    intro st pinfo count r hrun h
    unfold do_search_port_ports at h
    simp only [snd_seq_query_next_port] at h
    split at h
    · rename_i st1 heq
      simp only [Prod.mk.injEq] at heq
      obtain ⟨h1, _⟩ := heq
      cases h
      subst h1
      exact SearchRun.query_port _ _ hrun
    · cases h
  | succ fuel ih =>
    intro st pinfo count r hrun h
    unfold do_search_port_ports at h
    simp only [snd_seq_query_next_port] at h
    split at h
    · rename_i st1 heq
      simp only [Prod.mk.injEq] at heq
      obtain ⟨h1, _⟩ := heq
      cases h
      subst h1
      exact SearchRun.query_port _ _ hrun
    · rename_i st1 p1 heq
      simp only [Prod.mk.injEq] at heq
      obtain ⟨h1, _⟩ := heq
      subst h1
      have hq : SearchRun P do_action st0 (st.log (.snd_seq_query_next_port pinfo.client pinfo.port)) :=
        SearchRun.query_port pinfo.client pinfo.port hrun
      split at h
      · rename_i hperm
        split at h
        · cases h
        · rename_i st2 hact
          exact ih _ _ _ _ (SearchRun.invoke cinfo p1 count hq (hP p1 hperm) hact) h
      · exact ih _ _ _ _ hq h

theorem do_search_port_clients_run (K : SeqConsts) (env : Env) (show_all : Bool) (perm : Nat)
    (do_action : action_func_t) (fuel : Nat)
    (P : snd_seq_port_info_t → Prop) (hP : ∀ p, check_permission K p perm ≠ 0 → P p)
    (st0 : State) :
    ∀ (n : Nat) (st : State) (cinfo : snd_seq_client_info_t) (pinfo : snd_seq_port_info_t)
      (st1 : State),
      SearchRun P do_action st0 st →
      do_search_port_clients K env show_all perm do_action fuel n st cinfo pinfo = some st1 →
      SearchRun P do_action st0 st1 := by
  intro n
  induction n with
  | zero =>
    intro st cinfo pinfo st1 hrun h
    unfold do_search_port_clients at h
    simp only [snd_seq_query_next_client] at h
    split at h
    · rename_i st2 heq
      simp only [Prod.mk.injEq] at heq
      obtain ⟨h1, _⟩ := heq
      cases h
      subst h1
      exact SearchRun.query_client _ hrun
    · cases h
  | succ n ih =>
    intro st cinfo pinfo st1 hrun h
    unfold do_search_port_clients at h
    simp only [snd_seq_query_next_client] at h
    split at h
    · rename_i st2 heq
      simp only [Prod.mk.injEq] at heq
      obtain ⟨h1, _⟩ := heq
      cases h
      subst h1
      exact SearchRun.query_client _ hrun
    · rename_i st2 c1 heq
      simp only [Prod.mk.injEq] at heq
      obtain ⟨h1, _⟩ := heq
      subst h1
      have hq : SearchRun P do_action st0 (st.log (.snd_seq_query_next_client cinfo.client)) :=
        SearchRun.query_client cinfo.client hrun
      split at h
      · cases h
      · rename_i st3 p3 hports
        have := do_search_port_ports_run K env show_all perm do_action c1 P hP st0 _ _ _ _ _ hq
          hports
        exact ih _ _ _ _ this h

theorem do_search_port_run (K : SeqConsts) (env : Env) (show_all : Bool) (fuel : Nat)
    (st st1 : State) (perm : Nat) (do_action : action_func_t)
    (P : snd_seq_port_info_t → Prop) (hP : ∀ p, check_permission K p perm ≠ 0 → P p)
    (h : do_search_port K env show_all fuel st perm do_action = some st1) :
    SearchRun P do_action st st1 :=
  do_search_port_clients_run K env show_all perm do_action fuel P hP st fuel st _ _ st1
    (SearchRun.start st) h

/-- C4. With perm LIST_INPUT, check_permission returns non-zero only for a port
whose capability contains the read and subscribe-read bits and whose direction is
0 or has the input bit; with LIST_OUTPUT, only for a port whose capability
contains the write and subscribe-write bits and whose direction is 0 or has the
output bit.  Hence a do_search_port with the input (output) filter that returns
has made, besides its enumeration queries, only callback invocations on such
ports. -/
theorem C4_filter_lists_only_permitted_ports (K : SeqConsts) :
    (∀ pinfo, check_permission K pinfo LIST_INPUT ≠ 0 → input_port K pinfo)
    ∧ (∀ pinfo, check_permission K pinfo LIST_OUTPUT ≠ 0 → output_port K pinfo)
    ∧ (∀ env show_all fuel st st1 do_action,
        do_search_port K env show_all fuel st LIST_INPUT do_action = some st1 →
        SearchRun (input_port K) do_action st st1)
    ∧ (∀ env show_all fuel st st1 do_action,
        do_search_port K env show_all fuel st LIST_OUTPUT do_action = some st1 →
        SearchRun (output_port K) do_action st st1) :=
  ⟨check_permission_input K, check_permission_output K,
   fun env show_all fuel st st1 do_action h =>
     do_search_port_run K env show_all fuel st st1 LIST_INPUT do_action _
       (check_permission_input K) h,
   fun env show_all fuel st st1 do_action h =>
     do_search_port_run K env show_all fuel st st1 LIST_OUTPUT do_action _
       (check_permission_output K) h⟩

theorem C4_witness :
    input_port alsa_consts { capability := 33 }
    ∧ ∃ st1, do_search_port alsa_consts env_exported false 2 st_two_subs LIST_INPUT
          (print_port alsa_consts) = some st1
        ∧ SearchRun (input_port alsa_consts) (print_port alsa_consts) st_two_subs st1 :=
  ⟨(C4_filter_lists_only_permitted_ports alsa_consts).1 { capability := 33 } (by decide),
   _, rfl,
   (C4_filter_lists_only_permitted_ports alsa_consts).2.2.1 env_exported false 2 st_two_subs _
     (print_port alsa_consts) rfl⟩

end Aconnect
